import Mathlib

/-
Verification of the thegigup backend's cache-consistency and state-transition
layer.  The definitions below are a shallow embedding of the JavaScript source:
every route handler that the claims touch is translated into a pure Lean
function over an explicit database/cache state, following the source's control
flow statement by statement (guard order, early returns, transaction bodies,
cache-key enumeration loops).  Machine arithmetic in the source is plain JS
numbers over small integers, embedded here as Nat / Int / Rat.
-/

namespace TheGigUp

/-! ## Data model (Prisma entities as used by src/client/client.js,
src/freelancer/freelancer.js, src/admin/admin.js) -/

inductive ProjectStatus where
  | ADMIN_VERIFICATION
  | OPEN
  | ASSIGNED
  | PENDING_COMPLETION
  | COMPLETED
  | CANCELLED
deriving DecidableEq, Repr

inductive AppStatus where
  | PENDING
  | APPROVED
  | REJECTED
deriving DecidableEq, Repr

inductive RaterType where
  | CLIENT_TO_FREELANCER
  | FREELANCER_TO_CLIENT
deriving DecidableEq, Repr

structure UserRow where
  id : Nat
  isActive : Bool
deriving DecidableEq, Repr

structure ClientRow where
  id : Nat
  userId : Nat
  ratings : ℚ
  projectsPosted : Nat
deriving DecidableEq, Repr

structure FreelancerRow where
  id : Nat
  userId : Nat
  availability : Bool
  skills : List String
  ratings : ℚ
  projectsCompleted : Nat
deriving DecidableEq, Repr

structure ProjectRow where
  id : Nat
  clientId : Nat
  assignedTo : Option Nat
  status : ProjectStatus
  rejectedReason : Option String
  isFeatured : Bool
deriving DecidableEq, Repr

structure ApplicationRow where
  id : Nat
  projectId : Nat
  freelancerId : Nat
  status : AppStatus
deriving DecidableEq, Repr

structure RatingRow where
  id : Nat
  projectId : Nat
  raterId : Nat
  ratedId : Nat
  raterType : RaterType
  rating : Int
deriving DecidableEq, Repr

structure DB where
  users : List UserRow
  clients : List ClientRow
  freelancers : List FreelancerRow
  projects : List ProjectRow
  applications : List ApplicationRow
  ratings : List RatingRow
deriving DecidableEq, Repr

/-- Cache: an association list from string keys to opaque cached values,
standing for the Redis store of src/utils/redis.js. -/
abbrev Cache := List (String × Nat)

/-- Whole-system state: relational source of truth plus the cache. -/
structure Sys where
  db : DB
  cache : Cache
deriving DecidableEq

/-- Response outcome of a handler, abstracting the HTTP status / message pairs
of the source. -/
inductive Resp where
  | ok
  | notFound
  | conflict
  | validationError
  | internalError
deriving DecidableEq, Repr

/-! ## Row lookups (prisma findUnique / findFirst) -/

def findUserById (db : DB) (uid : Nat) : Option UserRow :=
  db.users.find? (fun u => u.id = uid)

def findClientByUserId (db : DB) (uid : Nat) : Option ClientRow :=
  db.clients.find? (fun c => c.userId = uid)

def findClientById (db : DB) (cid : Nat) : Option ClientRow :=
  db.clients.find? (fun c => c.id = cid)

def findFreelancerByUserId (db : DB) (uid : Nat) : Option FreelancerRow :=
  db.freelancers.find? (fun f => f.userId = uid)

def findFreelancerById (db : DB) (fid : Nat) : Option FreelancerRow :=
  db.freelancers.find? (fun f => f.id = fid)

def findProjectById (db : DB) (pid : Nat) : Option ProjectRow :=
  db.projects.find? (fun p => p.id = pid)

/-- prisma.project.findFirst where id = pid and clientId = cid. -/
def findProjectOfClient (db : DB) (pid cid : Nat) : Option ProjectRow :=
  db.projects.find? (fun p => p.id = pid ∧ p.clientId = cid)

/-- prisma.project.findFirst where id = pid, clientId = cid and status = s. -/
def findProjectOfClientWithStatus (db : DB) (pid cid : Nat) (s : ProjectStatus) :
    Option ProjectRow :=
  db.projects.find? (fun p => p.id = pid ∧ p.clientId = cid ∧ p.status = s)

/-- prisma.project.findFirst where id = pid, assignedTo = fid and status = s. -/
def findProjectAssignedWithStatus (db : DB) (pid fid : Nat) (s : ProjectStatus) :
    Option ProjectRow :=
  db.projects.find? (fun p => p.id = pid ∧ p.assignedTo = some fid ∧ p.status = s)

/-- prisma.application.findFirst where id = aid and projectId = pid. -/
def findApplicationOnProject (db : DB) (aid pid : Nat) : Option ApplicationRow :=
  db.applications.find? (fun a => a.id = aid ∧ a.projectId = pid)

def findApplicationById (db : DB) (aid : Nat) : Option ApplicationRow :=
  db.applications.find? (fun a => a.id = aid)

/-- prisma.application.findUnique on the (projectId, freelancerId) unique pair. -/
def findApplicationByPair (db : DB) (pid fid : Nat) : Option ApplicationRow :=
  db.applications.find? (fun a => a.projectId = pid ∧ a.freelancerId = fid)

/-- prisma.rating.findUnique on the (projectId, raterId, ratedId) unique triple. -/
def findRatingByTriple (db : DB) (pid raterId ratedId : Nat) : Option RatingRow :=
  db.ratings.find? (fun r => r.projectId = pid ∧ r.raterId = raterId ∧ r.ratedId = ratedId)

/-- prisma.rating.findFirst where id = rid, raterId and raterType fixed. -/
def findRatingOfRater (db : DB) (rid raterId : Nat) (ty : RaterType) : Option RatingRow :=
  db.ratings.find? (fun r => r.id = rid ∧ r.raterId = raterId ∧ r.raterType = ty)

/-! ## OTP ledger (src/utils/passwordReset.js, src/utils/emailVerification.js)

The Redis value stored under one (purpose, subject) key, together with its
expiry instant.  Time is an abstract Nat clock; setCache key data ttl at
instant now yields expiresAt = now + ttl, and a get at instant now sees the
entry only while now < expiresAt. -/

structure OTPData where
  otp : Nat
  attempts : Nat
  verified : Bool
deriving DecidableEq, Repr

structure OTPEntry where
  data : OTPData
  expiresAt : Nat
deriving DecidableEq, Repr

/-- The store restricted to one (purpose, subject) key. -/
abbrev OTPStore := Option OTPEntry

inductive OTPResult where
  | expiredOrInvalid
  | invalidOTP
  | tooManyAttempts
  | valid
deriving DecidableEq, Repr

/-- storeOTP / storeEmailVerificationOTP: a fresh entry with attempts 0,
verified false, TTL 600 seconds. -/
def storeOTP (now code : Nat) : OTPStore :=
  some ⟨⟨code, 0, false⟩, now + 600⟩

/-- getCache at instant now: present only while unexpired. -/
def otpGet (st : OTPStore) (now : Nat) : Option OTPData :=
  match st with
  | none => none
  | some e => if now < e.expiresAt then some e.data else none

/-- verifyOTP of src/utils/passwordReset.js lines 30-57.  Wrong code
increments attempts; attempts at 3 or more deletes the entry; below that the
entry is rewritten with setCache(key, data, 600); a correct code marks
verified and rewrites with setCache(key, data, 900). -/
def verifyOTP (st : OTPStore) (now code : Nat) : OTPStore × OTPResult :=
  match otpGet st now with
  | none => (st, .expiredOrInvalid)
  | some data =>
    if data.otp ≠ code then
      let attempts := data.attempts + 1
      if attempts ≥ 3 then
        (none, .tooManyAttempts)
      else
        (some ⟨{ data with attempts := attempts }, now + 600⟩, .invalidOTP)
    else
      (some ⟨{ data with verified := true }, now + 900⟩, .valid)

/-- verifyEmailVerificationOTP of src/utils/emailVerification.js lines 28-55:
identical control flow, but a correct code rewrites with
setCache(key, data, 1800). -/
def verifyEmailVerificationOTP (st : OTPStore) (now code : Nat) : OTPStore × OTPResult :=
  match otpGet st now with
  | none => (st, .expiredOrInvalid)
  | some data =>
    if data.otp ≠ code then
      let attempts := data.attempts + 1
      if attempts ≥ 3 then
        (none, .tooManyAttempts)
      else
        (some ⟨{ data with attempts := attempts }, now + 600⟩, .invalidOTP)
    else
      (some ⟨{ data with verified := true }, now + 1800⟩, .valid)

/-! ## Cache operations and per-handler key enumerations

The Redis wrapper (src/utils/redis.js) swallows every set/get/delete failure;
a deleteCache call therefore always either removes the key or leaves the
store unchanged.  The embedding models the successful path: deleting a list
of keys removes exactly those keys. -/

def lookupCache (c : Cache) (k : String) : Option Nat :=
  (c.find? (fun e => e.1 = k)).map (fun e => e.2)

def deleteKeys (c : Cache) (ks : List String) : Cache :=
  c.filter (fun e => !(ks.contains e.1))

/-- Loop bound pages 1..10 used by most handlers' invalidation loops. -/
def pages10 : List Nat := [1, 2, 3, 4, 5, 6, 7, 8, 9, 10]

/-- Loop bound pages 1..5 used by invalidateClientCaches and the skill loop. -/
def pages5 : List Nat := [1, 2, 3, 4, 5]

/-- Page sizes enumerated by every invalidation loop. -/
def pageSizes : List Nat := [10, 20, 50]

/-- Key grid of the helper invalidateClientCaches (client.js lines 37-67):
statuses all/OPEN/ASSIGNED/COMPLETED, pages 1..5, limits 10/20/50. -/
def clientStatusFilters : List String := ["all", "OPEN", "ASSIGNED", "COMPLETED"]

def invalidateClientCachesKeys (userId : Nat) : List String :=
  [s!"client:profile:{userId}",
   s!"client:dashboard:{userId}",
   "public:projects:available",
   "public:projects:recent",
   "public:featured:projects",
   "admin:dashboard:stats"]
  ++ clientStatusFilters.flatMap (fun status =>
       pages5.flatMap (fun page =>
         pageSizes.map (fun limit =>
           s!"client:projects:{userId}:status:{status}:page:{page}:limit:{limit}")))

/-- invalidateClientCaches (client.js lines 37-67) as a cache transformer. -/
def invalidateClientCaches (c : Cache) (userId : Nat) : Cache :=
  deleteKeys c (invalidateClientCachesKeys userId)

/-- Keys deleted by the approve-application handler (client.js 2462-2488):
four fixed keys plus a pages 1..10 by limits 10/20/50 grid of thirteen
paginated list keys per cell. -/
def approveAppKeys (userId freelancerUserId : Nat) : List String :=
  [s!"client:dashboard:{userId}",
   s!"freelancer:dashboard:{freelancerUserId}",
   "public:projects:available",
   "admin:dashboard:stats"]
  ++ pages10.flatMap (fun page =>
       pageSizes.flatMap (fun limit =>
         [s!"client:projects:{userId}:status:all:page:{page}:limit:{limit}",
          s!"client:projects:{userId}:status:OPEN:page:{page}:limit:{limit}",
          s!"client:projects:{userId}:status:ASSIGNED:page:{page}:limit:{limit}",
          s!"client:applications:{userId}:status:all:page:{page}:limit:{limit}",
          s!"client:applications:{userId}:status:PENDING:page:{page}:limit:{limit}",
          s!"client:applications:{userId}:status:APPROVED:page:{page}:limit:{limit}",
          s!"client:applications:{userId}:status:REJECTED:page:{page}:limit:{limit}",
          s!"freelancer:applications:{freelancerUserId}:status:all:page:{page}:limit:{limit}",
          s!"freelancer:applications:{freelancerUserId}:status:PENDING:page:{page}:limit:{limit}",
          s!"freelancer:applications:{freelancerUserId}:status:APPROVED:page:{page}:limit:{limit}",
          s!"freelancer:projects:{freelancerUserId}:status:all:page:{page}:limit:{limit}",
          s!"freelancer:projects:{freelancerUserId}:status:ASSIGNED:page:{page}:limit:{limit}",
          s!"freelancer:available:projects:{freelancerUserId}:skills:default:budgetMin:any:budgetMax:any:page:{page}:limit:{limit}"]))

/-- Keys deleted by the apply handler (freelancer.js 582-636). -/
def applyKeys (flUserId : Nat) (skills : List String) (clientUserId pid : Nat) :
    List String :=
  [s!"freelancer:dashboard:{flUserId}",
   s!"client:dashboard:{clientUserId}",
   s!"client:projects:{clientUserId}",
   s!"project:{pid}:applications",
   "public:projects:available",
   "admin:dashboard:stats"]
  ++ pages10.flatMap (fun page =>
       pageSizes.flatMap (fun limit =>
         [s!"freelancer:applications:{flUserId}:status:all:page:{page}:limit:{limit}",
          s!"freelancer:applications:{flUserId}:status:PENDING:page:{page}:limit:{limit}",
          s!"freelancer:applications:{flUserId}:status:APPROVED:page:{page}:limit:{limit}",
          s!"freelancer:applications:{flUserId}:status:REJECTED:page:{page}:limit:{limit}",
          s!"freelancer:available:projects:{flUserId}:skills:default:budgetMin:any:budgetMax:any:page:{page}:limit:{limit}",
          s!"client:projects:{clientUserId}:status:all:page:{page}:limit:{limit}",
          s!"client:projects:{clientUserId}:status:OPEN:page:{page}:limit:{limit}",
          s!"client:applications:{clientUserId}:status:all:page:{page}:limit:{limit}",
          s!"client:applications:{clientUserId}:status:PENDING:page:{page}:limit:{limit}"]))
  ++ (if skills.length > 0 then
        let skillsString := String.intercalate "," skills
        pages5.flatMap (fun page =>
          pageSizes.map (fun limit =>
            s!"freelancer:available:projects:{flUserId}:skills:{skillsString}:budgetMin:any:budgetMax:any:page:{page}:limit:{limit}"))
      else [])

/-- Keys deleted by the reject-application handler (client.js 596-630). -/
def rejectApplicationKeys (userId pid freelancerUserId : Nat) : List String :=
  [s!"client:dashboard:{userId}",
   s!"freelancer:dashboard:{freelancerUserId}",
   "admin:dashboard:stats"]
  ++ pages10.flatMap (fun page =>
       pageSizes.flatMap (fun limit =>
         [s!"client:applications:{userId}:status:all:page:{page}:limit:{limit}",
          s!"client:applications:{userId}:status:PENDING:page:{page}:limit:{limit}",
          s!"client:applications:{userId}:status:REJECTED:page:{page}:limit:{limit}",
          s!"client:project:{pid}:applications:status:all:page:{page}:limit:{limit}",
          s!"client:project:{pid}:applications:status:PENDING:page:{page}:limit:{limit}",
          s!"client:project:{pid}:applications:status:REJECTED:page:{page}:limit:{limit}",
          s!"freelancer:applications:{freelancerUserId}:status:all:page:{page}:limit:{limit}",
          s!"freelancer:applications:{freelancerUserId}:status:PENDING:page:{page}:limit:{limit}",
          s!"freelancer:applications:{freelancerUserId}:status:REJECTED:page:{page}:limit:{limit}"]))

/-- Keys deleted by the request-completion handler (freelancer.js 892-920). -/
def requestCompletionKeys (flUserId clientUserId : Nat) : List String :=
  [s!"freelancer:dashboard:{flUserId}",
   s!"client:dashboard:{clientUserId}",
   "admin:dashboard:stats"]
  ++ pages10.flatMap (fun page =>
       pageSizes.flatMap (fun limit =>
         [s!"freelancer:projects:{flUserId}:status:all:page:{page}:limit:{limit}",
          s!"freelancer:projects:{flUserId}:status:ASSIGNED:page:{page}:limit:{limit}",
          s!"freelancer:projects:{flUserId}:status:PENDING_COMPLETION:page:{page}:limit:{limit}",
          s!"client:projects:{clientUserId}:status:all:page:{page}:limit:{limit}",
          s!"client:projects:{clientUserId}:status:ASSIGNED:page:{page}:limit:{limit}",
          s!"client:projects:{clientUserId}:status:PENDING_COMPLETION:page:{page}:limit:{limit}"]))

/-- Keys deleted by the approve-completion handler (client.js 931-964). -/
def approveCompletionKeys (userId freelancerUserId : Nat) : List String :=
  [s!"client:dashboard:{userId}",
   s!"client:profile:{userId}",
   s!"freelancer:dashboard:{freelancerUserId}",
   s!"freelancer:profile:{freelancerUserId}",
   "public:featured:freelancers",
   "admin:dashboard:stats"]
  ++ pages10.flatMap (fun page =>
       pageSizes.flatMap (fun limit =>
         [s!"client:projects:{userId}:status:all:page:{page}:limit:{limit}",
          s!"client:projects:{userId}:status:PENDING_COMPLETION:page:{page}:limit:{limit}",
          s!"client:projects:{userId}:status:COMPLETED:page:{page}:limit:{limit}",
          s!"client:projects:{userId}:status:ASSIGNED:page:{page}:limit:{limit}",
          s!"freelancer:projects:{freelancerUserId}:status:all:page:{page}:limit:{limit}",
          s!"freelancer:projects:{freelancerUserId}:status:PENDING_COMPLETION:page:{page}:limit:{limit}",
          s!"freelancer:projects:{freelancerUserId}:status:COMPLETED:page:{page}:limit:{limit}",
          s!"freelancer:projects:{freelancerUserId}:status:ASSIGNED:page:{page}:limit:{limit}"]))

/-- Keys deleted by the create-project handler (client.js 222-251), the two
trailing entries being the literal wildcard-looking keys passed to deleteCache
at lines 247-248. -/
def createProjectKeys (userId : Nat) : List String :=
  [s!"client:profile:{userId}",
   s!"client:dashboard:{userId}",
   s!"client:projects:{userId}",
   "public:projects:available",
   "public:projects:recent",
   "public:featured:projects",
   "admin:dashboard:stats"]
  ++ pages10.map (fun page => s!"client:projects:{userId}:page:{page}")
  ++ pages10.map (fun page => s!"public:projects:page:{page}")
  ++ [s!"client:projects:{userId}:*", "public:projects:*"]

/-- Keys deleted by the rate-client handler (freelancer.js 1045-1078). -/
def rateClientKeys (flUserId clientUserId : Nat) : List String :=
  [s!"client:profile:{clientUserId}",
   s!"client:ratings:{clientUserId}:all",
   s!"client:ratings:{clientUserId}:received",
   s!"client:ratings:{clientUserId}:given",
   s!"freelancer:ratings:{flUserId}:all",
   s!"freelancer:ratings:{flUserId}:given",
   s!"freelancer:ratings:{flUserId}:received",
   s!"public:user:{clientUserId}:ratings",
   "public:featured:freelancers",
   "public:featured:clients",
   "admin:dashboard:stats"]
  ++ pages10.flatMap (fun page =>
       pageSizes.flatMap (fun limit =>
         [s!"freelancer:ratings:{flUserId}:all:page:{page}:limit:{limit}",
          s!"freelancer:ratings:{flUserId}:given:page:{page}:limit:{limit}",
          s!"freelancer:ratings:{flUserId}:received:page:{page}:limit:{limit}",
          s!"client:ratings:{clientUserId}:all:page:{page}:limit:{limit}",
          s!"client:ratings:{clientUserId}:given:page:{page}:limit:{limit}",
          s!"client:ratings:{clientUserId}:received:page:{page}:limit:{limit}"]))

/-- Keys deleted by the freelancer update-rating handler
(freelancer.js 1321-1343). -/
def updateRatingFlKeys (flUserId clientUserId : Nat) : List String :=
  [s!"client:profile:{clientUserId}",
   s!"public:user:{clientUserId}:ratings",
   "public:featured:freelancers",
   "public:featured:clients"]
  ++ pages10.flatMap (fun page =>
       pageSizes.flatMap (fun limit =>
         [s!"freelancer:ratings:{flUserId}:all:page:{page}:limit:{limit}",
          s!"freelancer:ratings:{flUserId}:given:page:{page}:limit:{limit}",
          s!"freelancer:ratings:{flUserId}:received:page:{page}:limit:{limit}",
          s!"client:ratings:{clientUserId}:all:page:{page}:limit:{limit}",
          s!"client:ratings:{clientUserId}:given:page:{page}:limit:{limit}",
          s!"client:ratings:{clientUserId}:received:page:{page}:limit:{limit}"]))

/-- Keys deleted by the admin single-project status handler (admin.js 698-705). -/
def adminStatusKeys (pid clientId clientUserId : Nat) : List String :=
  ["admin:dashboard:stats",
   "public:projects:recent",
   "public:featured:projects",
   s!"project:{pid}",
   s!"client:projects:{clientId}",
   s!"client:dashboard:{clientUserId}"]

/-- Keys deleted by the admin bulk status handler (admin.js 975-982). -/
def bulkKeys (validIds clientIds clientUserIds : List Nat) : List String :=
  ["admin:dashboard:stats",
   "public:projects:recent",
   "public:featured:projects"]
  ++ validIds.map (fun i => s!"project:{i}")
  ++ clientIds.map (fun c => s!"client:projects:{c}")
  ++ clientUserIds.map (fun u => s!"client:dashboard:{u}")

/-! ## Route handlers

Each handler is a pure function from the system state (plus request inputs)
to a response and the next system state.  Error paths return the state
unchanged exactly where the source returns before performing a write.
Middleware (authenticateToken, checkClientActive, checkFreelancerActive)
performs reads only; where a handler consumes req.client / req.freelancer the
row is taken as an argument, mirroring the middleware contract.  Fresh row
identifiers generated by the database are taken as arguments. -/

/-- POST /api/client/projects (client.js 154-258): creates the project in
status ADMIN_VERIFICATION and increments the client's projectsPosted. -/
def createProject (st : Sys) (userId : Nat) (title : String) (newPid : Nat) :
    Resp × Sys :=
  if title = "" then (.validationError, st)
  else
    match findClientByUserId st.db userId with
    | none => (.notFound, st)
    | some client =>
      let row : ProjectRow :=
        ⟨newPid, client.id, none, .ADMIN_VERIFICATION, none, false⟩
      let db1 : DB :=
        { st.db with
          projects := st.db.projects ++ [row],
          clients := st.db.clients.map (fun c =>
            if c.id = client.id then { c with projectsPosted := c.projectsPosted + 1 }
            else c) }
      (.ok, ⟨db1, deleteKeys st.cache (createProjectKeys userId)⟩)

/-- Input validation shared by the admin status handlers (admin.js 612-632 and
900-921): a reject needs a truthy reason, and any truthy reason must be at
least 10 characters once trimmed. -/
def adminValidate (isReject : Bool) (reason : Option String) : Bool :=
  if isReject ∧ reason.getD "" = "" then false
  else if reason.getD "" ≠ "" ∧ (reason.getD "").trim.length < 10 then false
  else true

/-- PATCH /api/admin/projects/:projectId/status (admin.js 606-739): approve
moves ADMIN_VERIFICATION to OPEN, reject moves it to CANCELLED with the
trimmed reason stored; any other current status is refused untouched. -/
def adminUpdateProjectStatus (st : Sys) (pid : Nat) (isReject : Bool)
    (reason : Option String) : Resp × Sys :=
  if ¬adminValidate isReject reason then (.validationError, st)
  else
    match findProjectById st.db pid with
    | none => (.notFound, st)
    | some project =>
      if project.status ≠ .ADMIN_VERIFICATION then (.conflict, st)
      else
        let newStatus := if isReject then ProjectStatus.CANCELLED else .OPEN
        let newReason := if isReject then some ((reason.getD "").trim) else none
        let db1 : DB :=
          { st.db with
            projects := st.db.projects.map (fun p =>
              if p.id = pid then { p with status := newStatus, rejectedReason := newReason }
              else p) }
        match findClientById st.db project.clientId with
        | none => (.internalError, ⟨db1, st.cache⟩)
        | some client =>
          (.ok, ⟨db1, deleteKeys st.cache (adminStatusKeys pid project.clientId client.userId)⟩)

/-- PATCH /api/admin/projects/bulk-status (admin.js 880-1020): bulk variant of
the same transition over the requested ids that are in ADMIN_VERIFICATION. -/
def bulkUpdateProjectStatus (st : Sys) (projectIds : List Nat) (isReject : Bool)
    (reason : Option String) : Resp × Sys :=
  if ¬adminValidate isReject reason then (.validationError, st)
  else
    let selected := st.db.projects.filter (fun p =>
      decide (p.id ∈ projectIds ∧ p.status = .ADMIN_VERIFICATION))
    if selected.length = 0 then (.conflict, st)
    else
      let validIds := selected.map (fun p => p.id)
      let newStatus := if isReject then ProjectStatus.CANCELLED else .OPEN
      let newReason := if isReject then some ((reason.getD "").trim) else none
      let db1 : DB :=
        { st.db with
          projects := st.db.projects.map (fun p =>
            if p.id ∈ validIds then { p with status := newStatus, rejectedReason := newReason }
            else p) }
      match selected.mapM (fun p => findClientById st.db p.clientId) with
      | none => (.internalError, ⟨db1, st.cache⟩)
      | some clients =>
        (.ok, ⟨db1, deleteKeys st.cache
          (bulkKeys validIds (selected.map (fun p => p.clientId))
            (clients.map (fun c => c.userId)))⟩)

/-- PATCH /api/admin/projects/:projectId/toggle-featured (admin.js 497-538). -/
def toggleFeatured (st : Sys) (pid : Nat) : Resp × Sys :=
  match findProjectById st.db pid with
  | none => (.notFound, st)
  | some project =>
    let db1 : DB :=
      { st.db with
        projects := st.db.projects.map (fun p =>
          if p.id = pid then { p with isFeatured := !project.isFeatured } else p) }
    (.ok, ⟨db1, deleteKeys st.cache ["public:featured:projects"]⟩)

/-- POST /api/freelancer/projects/:projectId/apply (freelancer.js 465-652).
The fl argument is req.freelancer from checkFreelancerActive. -/
def applyProject (st : Sys) (fl : FreelancerRow) (pid : Nat) (newAid : Nat) :
    Resp × Sys :=
  if !fl.availability then (.conflict, st)
  else
    match findProjectById st.db pid with
    | none => (.notFound, st)
    | some project =>
      match findClientById st.db project.clientId with
      | none => (.internalError, st)
      | some client =>
        match findUserById st.db client.userId with
        | none => (.internalError, st)
        | some clientUser =>
          if !clientUser.isActive then (.conflict, st)
          else if project.status ≠ .OPEN then (.conflict, st)
          else if project.assignedTo ≠ none then (.conflict, st)
          else
            match findApplicationByPair st.db pid fl.id with
            | some _ => (.conflict, st)
            | none =>
              let row : ApplicationRow := ⟨newAid, pid, fl.id, .PENDING⟩
              let db1 : DB := { st.db with applications := st.db.applications ++ [row] }
              (.ok, ⟨db1, deleteKeys st.cache (applyKeys fl.userId fl.skills client.userId pid)⟩)

/-- PUT /api/client/projects/:projectId/applications/:applicationId/reject
(client.js 505-649): single PENDING application becomes REJECTED. -/
def rejectApplication (st : Sys) (userId pid aid : Nat) : Resp × Sys :=
  match findClientByUserId st.db userId with
  | none => (.notFound, st)
  | some client =>
    match findProjectOfClient st.db pid client.id with
    | none => (.notFound, st)
    | some _project =>
      match findApplicationOnProject st.db aid pid with
      | none => (.notFound, st)
      | some app =>
        if app.status ≠ .PENDING then (.conflict, st)
        else
          let db1 : DB :=
            { st.db with
              applications := st.db.applications.map (fun a =>
                if a.id = aid then { a with status := .REJECTED } else a) }
          match findFreelancerById st.db app.freelancerId with
          | none => (.internalError, ⟨db1, st.cache⟩)
          | some fl =>
            match findUserById st.db fl.userId with
            | none => (.internalError, ⟨db1, st.cache⟩)
            | some u =>
              (.ok, ⟨db1, deleteKeys st.cache (rejectApplicationKeys userId pid u.id)⟩)

/-- Guard phase of the approve-application handler (client.js 2342-2415):
ownership, project OPEN, application PENDING — all read and checked before,
and outside of, the transaction. -/
def approveGuard (db : DB) (userId pid aid : Nat) :
    Except Resp (ProjectRow × ApplicationRow) :=
  match findClientByUserId db userId with
  | none => .error .notFound
  | some client =>
    match findProjectOfClient db pid client.id with
    | none => .error .notFound
    | some project =>
      if project.status ≠ .OPEN then .error .conflict
      else
        match findApplicationOnProject db aid pid with
        | none => .error .notFound
        | some app =>
          if app.status ≠ .PENDING then .error .conflict
          else .ok (project, app)

/-- Transaction body of the approve-application handler (client.js 2418-2458),
run atomically: the named application becomes APPROVED, the project becomes
ASSIGNED to the application's freelancer, and every other application of the
project whose status is PENDING becomes REJECTED. -/
def approveTx (db : DB) (pid aid freelancerId : Nat) : DB :=
  { db with
    applications := db.applications.map (fun a =>
      if a.id = aid then { a with status := .APPROVED }
      else if a.projectId = pid ∧ a.status = .PENDING then { a with status := .REJECTED }
      else a),
    projects := db.projects.map (fun p =>
      if p.id = pid then { p with assignedTo := some freelancerId, status := .ASSIGNED }
      else p) }

/-- PUT /api/client/projects/:projectId/applications/:applicationId/approve
(client.js 2342-2509): guard phase, then the transaction, then the cache
invalidation batch keyed by the applicant's user id. -/
def approveApplication (st : Sys) (userId pid aid : Nat) : Resp × Sys :=
  match approveGuard st.db userId pid aid with
  | .error r => (r, st)
  | .ok (_project, app) =>
    let db1 := approveTx st.db pid aid app.freelancerId
    match findFreelancerById st.db app.freelancerId with
    | none => (.internalError, ⟨db1, st.cache⟩)
    | some fl =>
      match findUserById st.db fl.userId with
      | none => (.internalError, ⟨db1, st.cache⟩)
      | some u =>
        (.ok, ⟨db1, deleteKeys st.cache (approveAppKeys userId u.id)⟩)

/-- PUT /api/freelancer/projects/:projectId/request-completion
(freelancer.js 830-938): ASSIGNED moves to PENDING_COMPLETION when the caller
is the assigned freelancer and the owning client's account is active. -/
def requestCompletion (st : Sys) (fl : FreelancerRow) (pid : Nat) : Resp × Sys :=
  match findProjectAssignedWithStatus st.db pid fl.id .ASSIGNED with
  | none => (.notFound, st)
  | some project =>
    match findClientById st.db project.clientId with
    | none => (.internalError, st)
    | some client =>
      match findUserById st.db client.userId with
      | none => (.internalError, st)
      | some clientUser =>
        if !clientUser.isActive then (.conflict, st)
        else
          let db1 : DB :=
            { st.db with
              projects := st.db.projects.map (fun p =>
                if p.id = pid then { p with status := .PENDING_COMPLETION } else p) }
          (.ok, ⟨db1, deleteKeys st.cache (requestCompletionKeys fl.userId client.userId)⟩)

/-- PUT /api/client/projects/:projectId/approve-completion (client.js 859-983):
PENDING_COMPLETION moves to COMPLETED and the assigned freelancer's
projectsCompleted is incremented, in one transaction. -/
def approveCompletion (st : Sys) (userId pid : Nat) : Resp × Sys :=
  match findClientByUserId st.db userId with
  | none => (.notFound, st)
  | some client =>
    match findProjectOfClientWithStatus st.db pid client.id .PENDING_COMPLETION with
    | none => (.notFound, st)
    | some project =>
      match project.assignedTo.bind (findFreelancerById st.db) with
      | none => (.internalError, st)
      | some fl =>
        let db1 : DB :=
          { st.db with
            projects := st.db.projects.map (fun p =>
              if p.id = pid then { p with status := .COMPLETED } else p),
            freelancers := st.db.freelancers.map (fun f =>
              if f.id = fl.id then { f with projectsCompleted := f.projectsCompleted + 1 }
              else f) }
        match findUserById st.db fl.userId with
        | none => (.internalError, ⟨db1, st.cache⟩)
        | some u =>
          (.ok, ⟨db1, deleteKeys st.cache (approveCompletionKeys userId u.id)⟩)

/-- PUT /api/client/projects/:projectId/reject-completion (client.js 986-1088):
the status write back to ASSIGNED commits, but the findFirst at line 1012 has
no include clause, so the access project.freelancer.user.id at line 1037
throws a TypeError; the catch block reports a 500 and no cache key is ever
deleted. -/
def rejectCompletion (st : Sys) (userId pid : Nat) (rejectionReason : Option String) :
    Resp × Sys :=
  if rejectionReason.getD "" = "" then (.validationError, st)
  else
    match findClientByUserId st.db userId with
    | none => (.notFound, st)
    | some client =>
      match findProjectOfClientWithStatus st.db pid client.id .PENDING_COMPLETION with
      | none => (.notFound, st)
      | some _project =>
        let db1 : DB :=
          { st.db with
            projects := st.db.projects.map (fun p =>
              if p.id = pid then { p with status := .ASSIGNED } else p) }
        (.internalError, ⟨db1, st.cache⟩)

/-! ## Rating aggregation (client.js 1091-1219 and 1352-1442,
freelancer.js 941-1096 and 1247-1360) -/

/-- All rating values addressed to ratedId in the fixed direction ty
(the findMany inside each rating transaction). -/
def ratingsFor (db : DB) (ratedId : Nat) (ty : RaterType) : List Int :=
  (db.ratings.filter (fun r => r.ratedId = ratedId ∧ r.raterType = ty)).map
    (fun r => r.rating)

/-- Arithmetic mean of the matching rating values, in exact rationals. -/
def meanRatings (db : DB) (ratedId : Nat) (ty : RaterType) : ℚ :=
  ((ratingsFor db ratedId ty).sum : ℚ) / ((ratingsFor db ratedId ty).length : ℚ)

/-- toFixed(2) on a nonnegative value: round half up at the second decimal. -/
def round2 (q : ℚ) : ℚ := (round (q * 100) : ℤ) / 100

/-- POST /api/client/projects/:projectId/rate-freelancer (client.js 1091-1219).
The client argument is req.client from checkClientActive.  In one transaction
the rating row is created, all CLIENT_TO_FREELANCER ratings of the freelancer
are re-read, and their rounded mean is written to the freelancer row. -/
def rateFreelancer (st : Sys) (client : ClientRow) (pid : Nat) (rating : Int)
    (newRid : Nat) : Resp × Sys :=
  if rating < 1 ∨ rating > 5 then (.validationError, st)
  else
    match findProjectOfClientWithStatus st.db pid client.id .COMPLETED with
    | none => (.notFound, st)
    | some project =>
      match project.assignedTo.bind (findFreelancerById st.db) with
      | none => (.conflict, st)
      | some fl =>
        match findRatingByTriple st.db pid client.userId fl.userId with
        | some _ => (.conflict, st)
        | none =>
          let row : RatingRow :=
            ⟨newRid, pid, client.userId, fl.userId, .CLIENT_TO_FREELANCER, rating⟩
          let db1 : DB := { st.db with ratings := st.db.ratings ++ [row] }
          let avg := meanRatings db1 fl.userId .CLIENT_TO_FREELANCER
          let db2 : DB :=
            { db1 with
              freelancers := db1.freelancers.map (fun f =>
                if f.id = fl.id then { f with ratings := round2 avg } else f) }
          (.ok, ⟨db2, deleteKeys st.cache
            [s!"freelancer:profile:{fl.userId}", "public:featured:freelancers"]⟩)

/-- POST /api/freelancer/projects/:projectId/rate-client
(freelancer.js 941-1096), the mirror image of rateFreelancer. -/
def rateClient (st : Sys) (fl : FreelancerRow) (pid : Nat) (rating : Int)
    (newRid : Nat) : Resp × Sys :=
  if rating < 1 ∨ rating > 5 then (.validationError, st)
  else
    match findProjectAssignedWithStatus st.db pid fl.id .COMPLETED with
    | none => (.notFound, st)
    | some project =>
      match findClientById st.db project.clientId with
      | none => (.internalError, st)
      | some client =>
        match findRatingByTriple st.db pid fl.userId client.userId with
        | some _ => (.conflict, st)
        | none =>
          let row : RatingRow :=
            ⟨newRid, pid, fl.userId, client.userId, .FREELANCER_TO_CLIENT, rating⟩
          let db1 : DB := { st.db with ratings := st.db.ratings ++ [row] }
          let avg := meanRatings db1 client.userId .FREELANCER_TO_CLIENT
          let db2 : DB :=
            { db1 with
              clients := db1.clients.map (fun c =>
                if c.id = project.clientId then { c with ratings := round2 avg } else c) }
          (.ok, ⟨db2, deleteKeys st.cache (rateClientKeys fl.userId client.userId)⟩)

/-- JS truthiness of an optional numeric body field: absent or zero is falsy. -/
def ratingTruthy (rating : Option Int) : Bool :=
  match rating with
  | none => false
  | some v => v ≠ 0

/-- Validation in the update-rating handlers: only a truthy rating value is
range checked. -/
def updateRatingInvalid (rating : Option Int) : Bool :=
  match rating with
  | none => false
  | some v => v ≠ 0 ∧ (v < 1 ∨ v > 5)

/-- New value of the rating column under the conditional spread
...(rating && { rating: parseInt(rating) }). -/
def appliedRating (rating : Option Int) (old : Int) : Int :=
  match rating with
  | none => old
  | some v => if v = 0 then old else v

/-- PUT /api/client/ratings/:ratingId (client.js 1352-1442): update a
CLIENT_TO_FREELANCER rating given by this client and recompute the
freelancer's rounded mean in the same transaction. -/
def updateRatingByClient (st : Sys) (userId rid : Nat) (rating : Option Int) :
    Resp × Sys :=
  if updateRatingInvalid rating then (.validationError, st)
  else
    match findRatingOfRater st.db rid userId .CLIENT_TO_FREELANCER with
    | none => (.notFound, st)
    | some existing =>
      match findProjectById st.db existing.projectId with
      | none => (.internalError, st)
      | some project =>
        match project.assignedTo.bind (findFreelancerById st.db) with
        | none => (.internalError, st)
        | some fl =>
          let db1 : DB :=
            { st.db with
              ratings := st.db.ratings.map (fun r =>
                if r.id = rid then { r with rating := appliedRating rating r.rating }
                else r) }
          let avg := meanRatings db1 fl.userId .CLIENT_TO_FREELANCER
          let db2 : DB :=
            { db1 with
              freelancers := db1.freelancers.map (fun f =>
                if f.id = fl.id then { f with ratings := round2 avg } else f) }
          (.ok, ⟨db2, deleteKeys st.cache [s!"freelancer:profile:{fl.userId}"]⟩)

/-- PUT /api/freelancer/ratings/:ratingId (freelancer.js 1247-1360): update a
FREELANCER_TO_CLIENT rating given by this freelancer and recompute the
client's rounded mean in the same transaction. -/
def updateRatingByFreelancer (st : Sys) (userId rid : Nat) (rating : Option Int) :
    Resp × Sys :=
  if updateRatingInvalid rating then (.validationError, st)
  else
    match findRatingOfRater st.db rid userId .FREELANCER_TO_CLIENT with
    | none => (.notFound, st)
    | some existing =>
      match findProjectById st.db existing.projectId with
      | none => (.internalError, st)
      | some project =>
        match findClientById st.db project.clientId with
        | none => (.internalError, st)
        | some client =>
          let db1 : DB :=
            { st.db with
              ratings := st.db.ratings.map (fun r =>
                if r.id = rid then { r with rating := appliedRating rating r.rating }
                else r) }
          let avg := meanRatings db1 client.userId .FREELANCER_TO_CLIENT
          let db2 : DB :=
            { db1 with
              clients := db1.clients.map (fun c =>
                if c.id = project.clientId then { c with ratings := round2 avg } else c) }
          (.ok, ⟨db2, deleteKeys st.cache (updateRatingFlKeys userId client.userId)⟩)

/-! ## Derived predicates, invariants and concrete scenario states -/

/-- Number of APPROVED applications of one project in a row list. -/
def approvedCount (apps : List ApplicationRow) (pid : Nat) : Nat :=
  apps.countP (fun a => a.projectId = pid ∧ a.status = .APPROVED)

/-- Number of APPROVED applications of one project in the database. -/
def approvedOn (db : DB) (pid : Nat) : Nat :=
  approvedCount db.applications pid

/-- The project statuses from ASSIGNED onward (spec section 3). -/
def statusAssignedOrLater (s : ProjectStatus) : Prop :=
  s = .ASSIGNED ∨ s = .PENDING_COMPLETION ∨ s = .COMPLETED

instance (s : ProjectStatus) : Decidable (statusAssignedOrLater s) := by
  unfold statusAssignedOrLater
  infer_instance

/-- The C4 invariant: every project has at most one APPROVED application, and
one exists exactly when the project is ASSIGNED, PENDING_COMPLETION or
COMPLETED. -/
def Inv (db : DB) : Prop :=
  ∀ p ∈ db.projects,
    approvedOn db p.id ≤ 1 ∧ (0 < approvedOn db p.id ↔ statusAssignedOrLater p.status)

instance (db : DB) : Decidable (Inv db) := by
  unfold Inv
  infer_instance

/-- Primary-key well-formedness the relational store guarantees: project,
application, freelancer and client ids are unique. -/
def WF (db : DB) : Prop :=
  (db.projects.map (fun p => p.id)).Nodup ∧
  (db.applications.map (fun a => a.id)).Nodup ∧
  (db.freelancers.map (fun f => f.id)).Nodup ∧
  (db.clients.map (fun c => c.id)).Nodup

instance (db : DB) : Decidable (WF db) := by
  unfold WF
  infer_instance

/-- Concrete state for C6: client user 1 owns project 100, assigned to
freelancer 20 (user 2), now in PENDING_COMPLETION. -/
def dbC6 : DB :=
  ⟨[⟨1, true⟩, ⟨2, true⟩],
   [⟨10, 1, 0, 0⟩],
   [⟨20, 2, true, [], 0, 0⟩],
   [⟨100, 10, some 20, .PENDING_COMPLETION, none, false⟩],
   [⟨210, 100, 20, .APPROVED⟩], []⟩

def sysC6 : Sys := ⟨dbC6, []⟩

/-- Concrete state for the C2 witness: an OPEN project whose only application
was already REJECTED. -/
def dbC2 : DB :=
  ⟨[⟨1, true⟩, ⟨2, true⟩],
   [⟨10, 1, 0, 0⟩],
   [⟨20, 2, true, [], 0, 0⟩],
   [⟨100, 10, none, .OPEN, none, false⟩],
   [⟨200, 100, 20, .REJECTED⟩],
   []⟩

/-- Concrete state for the C3 witness: a COMPLETED project 100 of client 10
(user 1) assigned to freelancer 20 (user 2), with one prior rating of the
freelancer from another project. -/
def dbC3 : DB :=
  ⟨[⟨1, true⟩, ⟨2, true⟩],
   [⟨10, 1, 0, 0⟩],
   [⟨20, 2, true, [], 5, 0⟩],
   [⟨100, 10, some 20, .COMPLETED, none, false⟩],
   [],
   [⟨77, 99, 1, 2, .CLIENT_TO_FREELANCER, 5⟩]⟩

def sysC3 : Sys := ⟨dbC3, []⟩

/-- Concrete state for the update half of the C3 witness: the client's rating
500 on project 100 already exists and is about to be changed. -/
def dbC3u : DB :=
  ⟨[⟨1, true⟩, ⟨2, true⟩],
   [⟨10, 1, 0, 0⟩],
   [⟨20, 2, true, [], 4, 0⟩],
   [⟨100, 10, some 20, .COMPLETED, none, false⟩],
   [],
   [⟨500, 100, 1, 2, .CLIENT_TO_FREELANCER, 4⟩]⟩

def sysC3u : Sys := ⟨dbC3u, []⟩

/-- Concrete state for C10: one OPEN project 100 of client user 1 with two
PENDING applications 200 and 201 from freelancers 20 and 21. -/
def dbC10 : DB :=
  ⟨[⟨1, true⟩, ⟨2, true⟩, ⟨3, true⟩],
   [⟨10, 1, 0, 0⟩],
   [⟨20, 2, true, [], 0, 0⟩, ⟨21, 3, true, [], 0, 0⟩],
   [⟨100, 10, none, .OPEN, none, false⟩],
   [⟨200, 100, 20, .PENDING⟩, ⟨201, 100, 21, .PENDING⟩],
   []⟩

/-! ## Claim C7 and C8: the OTP attempt counter and TTL behaviour -/

/-- C7: on one (purpose, subject) OTP entry, every wrong-code check increments
the stored attempts counter; the wrong-code check that lifts attempts to 3
deletes the entry and reports exhaustion; and any check once the entry is
missing reports the expired-or-invalid error, not the wrong-code error. -/
theorem C7_otp_attempt_sequence (st : OTPStore) (now code : Nat) (d : OTPData)
    (hget : otpGet st now = some d) (hw : d.otp ≠ code) :
    (d.attempts + 1 < 3 →
      verifyOTP st now code =
        (some ⟨{ d with attempts := d.attempts + 1 }, now + 600⟩, .invalidOTP)) ∧
    (3 ≤ d.attempts + 1 →
      verifyOTP st now code = ((none : OTPStore), .tooManyAttempts)) ∧
    (∀ t c, verifyOTP (none : OTPStore) t c = ((none : OTPStore), .expiredOrInvalid)) := by
  refine ⟨fun hlt => ?_, fun hge => ?_, fun t c => rfl⟩
  · simp [verifyOTP, hget, hw, Nat.not_le.mpr hlt]
  · simp [verifyOTP, hget, hw, hge]

/-- Witness for C7: code 111 stored at time 0; wrong checks at times 10 and
then (from attempts already at 2) time 30 exhaust the entry; a later check
sees the missing-entry error. -/
theorem C7_witness :
    verifyOTP (storeOTP 0 111) 10 222 =
      (some ⟨⟨111, 1, false⟩, 610⟩, .invalidOTP) ∧
    verifyOTP (some ⟨⟨111, 2, false⟩, 620⟩) 30 222 = ((none : OTPStore), .tooManyAttempts) ∧
    verifyOTP (none : OTPStore) 40 222 = ((none : OTPStore), .expiredOrInvalid) := by
  have h1 := C7_otp_attempt_sequence (storeOTP 0 111) 10 222 ⟨111, 0, false⟩
    (by decide) (by decide)
  have h2 := C7_otp_attempt_sequence (some ⟨⟨111, 2, false⟩, 620⟩) 30 222 ⟨111, 2, false⟩
    (by decide) (by decide)
  exact ⟨h1.1 (by decide), h2.2.1 (by decide), h2.2.2 40 222⟩

/-- C8 counterexample: an entry created at time 0 expires at 600; a wrong-code
check at time 300 rewrites it to expire at 900, not at 600 — the wrong attempt
restarts a full 600-second TTL instead of keeping the remaining one. -/
theorem C8_counterexample :
    (verifyOTP (storeOTP 0 111) 300 222).1 = some ⟨⟨111, 1, false⟩, 900⟩ ∧
    storeOTP 0 111 = some ⟨⟨111, 0, false⟩, 600⟩ ∧ (900 : Nat) ≠ 600 := by
  decide

/-- C8 (amended): a wrong-code check below the attempt limit rewrites the
entry with a fresh full 600-second TTL measured from the check, for password
reset and email verification alike; a correct code extends the TTL to 900
seconds for password reset and to 1800 seconds for email verification. -/
theorem C8_wrong_code_resets_ttl (st : OTPStore) (now code : Nat) (d : OTPData)
    (hget : otpGet st now = some d) :
    (d.otp ≠ code → d.attempts + 1 < 3 →
      (verifyOTP st now code).1 =
        some ⟨{ d with attempts := d.attempts + 1 }, now + 600⟩ ∧
      (verifyEmailVerificationOTP st now code).1 =
        some ⟨{ d with attempts := d.attempts + 1 }, now + 600⟩) ∧
    (d.otp = code →
      (verifyOTP st now code).1 = some ⟨{ d with verified := true }, now + 900⟩ ∧
      (verifyEmailVerificationOTP st now code).1 =
        some ⟨{ d with verified := true }, now + 1800⟩) := by
  constructor
  · intro hw hlt
    constructor
    · simp [verifyOTP, hget, hw, Nat.not_le.mpr hlt]
    · simp [verifyEmailVerificationOTP, hget, hw, Nat.not_le.mpr hlt]
  · intro hr
    constructor
    · simp [verifyOTP, hget, hr]
    · simp [verifyEmailVerificationOTP, hget, hr]

/-- Witness for C8: the amended TTLs evaluated on the concrete entry of code
111 stored at time 0, checked at time 300 with the wrong code 222 and with
the correct code 111. -/
theorem C8_witness :
    (verifyOTP (storeOTP 0 111) 300 222).1 = some ⟨⟨111, 1, false⟩, 900⟩ ∧
    (verifyEmailVerificationOTP (storeOTP 0 111) 300 222).1 =
      some ⟨⟨111, 1, false⟩, 900⟩ ∧
    (verifyOTP (storeOTP 0 111) 300 111).1 = some ⟨⟨111, 0, true⟩, 1200⟩ ∧
    (verifyEmailVerificationOTP (storeOTP 0 111) 300 111).1 =
      some ⟨⟨111, 0, true⟩, 2100⟩ := by
  have hw := C8_wrong_code_resets_ttl (storeOTP 0 111) 300 222 ⟨111, 0, false⟩ (by decide)
  have hr := C8_wrong_code_resets_ttl (storeOTP 0 111) 300 111 ⟨111, 0, false⟩ (by decide)
  have h1 := hw.1 (by decide) (by decide)
  have h2 := hr.2 (by decide)
  exact ⟨h1.1, h1.2, h2.1, h2.2⟩

/-! ## Generic lemmas about keyed row tables -/

/-- In a table with unique keys, mapping a key-preserving row update and then
looking a row's key up finds exactly the updated row. -/
theorem find?_map_key_nodup {α : Type} (key : α → Nat) (g : α → α)
    (hg : ∀ b, key (g b) = key b) :
    ∀ (l : List α), (l.map key).Nodup → ∀ a ∈ l,
      (l.map g).find? (fun b => key b = key a) = some (g a) := by
  intro l
  induction l with
  | nil => intro _ a ha; cases ha
  | cons x xs ih =>
    intro hnd a ha
    rw [List.map_cons, List.nodup_cons] at hnd
    rcases List.mem_cons.mp ha with rfl | hmem
    · rw [List.map_cons]
      exact List.find?_cons_of_pos _ (by simp [hg])
    · have hx : key x ≠ key a := by
        intro hcontra
        exact hnd.1 (hcontra ▸ List.mem_map_of_mem key hmem)
      rw [List.map_cons, List.find?_cons_of_neg _ (by simp [hg, hx])]
      exact ih hnd.2 a hmem

/-! ## Claim C1: the approve-application transaction's exact writes -/

/-- C1: when the project belongs to the calling client and is OPEN and the
named application on it is PENDING, the approve operation performs exactly
these writes, all inside the single transaction body approveTx: the named
application becomes APPROVED, the project becomes ASSIGNED with assignedTo
the application's freelancerId, every other previously-PENDING application
of the project becomes REJECTED — and nothing else changes: all other
application rows and project rows are untouched, as are the user, client,
freelancer and rating tables. -/
theorem C1_approve_transaction (st : Sys) (userId pid aid : Nat)
    (client : ClientRow) (project : ProjectRow) (app : ApplicationRow)
    (hc : findClientByUserId st.db userId = some client)
    (hp : findProjectOfClient st.db pid client.id = some project)
    (hopen : project.status = .OPEN)
    (ha : findApplicationOnProject st.db aid pid = some app)
    (hpend : app.status = .PENDING)
    (hwf : WF st.db) :
    (approveApplication st userId pid aid).2.db =
        approveTx st.db pid aid app.freelancerId ∧
    findApplicationById (approveApplication st userId pid aid).2.db aid =
      some { app with status := .APPROVED } ∧
    findProjectById (approveApplication st userId pid aid).2.db pid =
      some { project with assignedTo := some app.freelancerId, status := .ASSIGNED } ∧
    (∀ a ∈ st.db.applications, a.projectId = pid → a.id ≠ aid → a.status = .PENDING →
      findApplicationById (approveApplication st userId pid aid).2.db a.id =
        some { a with status := .REJECTED }) ∧
    (∀ a ∈ st.db.applications, a.id ≠ aid → ¬(a.projectId = pid ∧ a.status = .PENDING) →
      findApplicationById (approveApplication st userId pid aid).2.db a.id = some a) ∧
    (∀ p ∈ st.db.projects, p.id ≠ pid →
      findProjectById (approveApplication st userId pid aid).2.db p.id = some p) ∧
    (approveApplication st userId pid aid).2.db.users = st.db.users ∧
    (approveApplication st userId pid aid).2.db.clients = st.db.clients ∧
    (approveApplication st userId pid aid).2.db.freelancers = st.db.freelancers ∧
    (approveApplication st userId pid aid).2.db.ratings = st.db.ratings := by
  have haid : app.id = aid ∧ app.projectId = pid := by
    have := List.find?_some ha
    simpa using this
  have hpid : project.id = pid ∧ project.clientId = client.id := by
    have := List.find?_some hp
    simpa using this
  have happmem : app ∈ st.db.applications := List.mem_of_find?_eq_some ha
  have hprojmem : project ∈ st.db.projects := List.mem_of_find?_eq_some hp
  have hguard : approveGuard st.db userId pid aid = .ok (project, app) := by
    unfold approveGuard
    simp [hc, hp, ha, hopen, hpend]
  have hdb : (approveApplication st userId pid aid).2.db =
      approveTx st.db pid aid app.freelancerId := by
    unfold approveApplication
    rw [hguard]
    cases hf : findFreelancerById st.db app.freelancerId with
    | none => simp [hf]
    | some fl =>
      cases hu2 : findUserById st.db fl.userId with
      | none => simp [hf, hu2]
      | some u => simp [hf, hu2]
  rw [hdb]
  set g : ApplicationRow → ApplicationRow := fun a =>
    if a.id = aid then { a with status := .APPROVED }
    else if a.projectId = pid ∧ a.status = .PENDING then { a with status := .REJECTED }
    else a with hgdef
  have hgid : ∀ b, (g b).id = b.id := by
    intro b
    rw [hgdef]
    by_cases h1 : b.id = aid
    · simp [h1]
    · by_cases h2 : b.projectId = pid ∧ b.status = .PENDING <;> simp [h1, h2]
  set gp : ProjectRow → ProjectRow := fun p =>
    if p.id = pid then { p with assignedTo := some app.freelancerId, status := .ASSIGNED }
    else p with hgpdef
  have hgpid : ∀ b, (gp b).id = b.id := by
    intro b
    rw [hgpdef]
    by_cases h1 : b.id = pid <;> simp [h1]
  have happs : (approveTx st.db pid aid app.freelancerId).applications =
      st.db.applications.map g := rfl
  have hprojs : (approveTx st.db pid aid app.freelancerId).projects =
      st.db.projects.map gp := rfl
  have hfindA : ∀ a ∈ st.db.applications,
      findApplicationById (approveTx st.db pid aid app.freelancerId) a.id = some (g a) := by
    intro a hamem
    show (approveTx st.db pid aid app.freelancerId).applications.find?
      (fun b => b.id = a.id) = some (g a)
    rw [happs]
    exact find?_map_key_nodup (fun b => b.id) g hgid st.db.applications hwf.2.1 a hamem
  have hfindP : ∀ p ∈ st.db.projects,
      findProjectById (approveTx st.db pid aid app.freelancerId) p.id = some (gp p) := by
    intro p hpmem
    show (approveTx st.db pid aid app.freelancerId).projects.find?
      (fun b => b.id = p.id) = some (gp p)
    rw [hprojs]
    exact find?_map_key_nodup (fun b => b.id) gp hgpid st.db.projects hwf.1 p hpmem
  refine ⟨rfl, ?_, ?_, ?_, ?_, ?_, rfl, rfl, rfl, rfl⟩
  · have := hfindA app happmem
    rw [haid.1] at this
    rw [this, hgdef]
    simp [haid.1]
  · have := hfindP project hprojmem
    rw [hpid.1] at this
    rw [this, hgpdef]
    simp [hpid.1]
  · intro a hamem hproj hne hpendA
    have := hfindA a hamem
    rw [this, hgdef]
    simp [hne, hproj, hpendA]
  · intro a hamem hne hnot
    have := hfindA a hamem
    rw [this, hgdef]
    simp only [if_neg hne, if_neg hnot]
  · intro p hpmem hne
    have := hfindP p hpmem
    rw [this, hgpdef]
    simp [hne]

/-- Witness for C1 on the concrete state dbC10: approving application 200
approves it, assigns project 100 to freelancer 20 and rejects the sibling
PENDING application 201. -/
theorem C1_witness :
    findApplicationById (approveApplication ⟨dbC10, []⟩ 1 100 200).2.db 200 =
      some ⟨200, 100, 20, .APPROVED⟩ ∧
    findProjectById (approveApplication ⟨dbC10, []⟩ 1 100 200).2.db 100 =
      some ⟨100, 10, some 20, .ASSIGNED, none, false⟩ ∧
    findApplicationById (approveApplication ⟨dbC10, []⟩ 1 100 200).2.db 201 =
      some ⟨201, 100, 21, .REJECTED⟩ := by
  have h := C1_approve_transaction ⟨dbC10, []⟩ 1 100 200 ⟨10, 1, 0, 0⟩
      ⟨100, 10, none, .OPEN, none, false⟩ ⟨200, 100, 20, .PENDING⟩
      (by decide) (by decide) (by decide) (by decide) (by decide) (by decide)
  refine ⟨h.2.1, h.2.2.1, ?_⟩
  have := h.2.2.2.1 ⟨201, 100, 21, .PENDING⟩ (by decide) (by decide) (by decide) (by decide)
  simpa using this

/-- In a project table with unique ids, any row carrying the id of a found
row is that row. -/
theorem project_unique (db : DB) (pid : Nat) (project : ProjectRow)
    (hnd : (db.projects.map (fun p => p.id)).Nodup)
    (hp : findProjectById db pid = some project) :
    ∀ q ∈ db.projects, q.id = pid → q = project := by
  intro q hq hqid
  have hpm := List.mem_of_find?_eq_some hp
  have hpid : project.id = pid := by simpa using List.find?_some hp
  exact List.inj_on_of_nodup_map hnd hq hpm (by rw [hqid, hpid])

/-! ## Claim C2: a status-guard mismatch mutates nothing -/

/-- C2: for each lifecycle transition — admin approve/reject, client approve
of an application, freelancer request-completion, client approve-completion,
client reject-completion — a current status that does not match the one the
transition requires yields an error response with the system state returned
exactly as it was: no database write and no cache deletion. -/
theorem C2_guard_mismatch_is_pure_error :
    (∀ (st : Sys) (pid : Nat) (isReject : Bool) (reason : Option String)
        (project : ProjectRow),
      adminValidate isReject reason = true →
      findProjectById st.db pid = some project →
      project.status ≠ .ADMIN_VERIFICATION →
      adminUpdateProjectStatus st pid isReject reason = (.conflict, st)) ∧
    (∀ (st : Sys) (userId pid aid : Nat) (client : ClientRow) (project : ProjectRow),
      findClientByUserId st.db userId = some client →
      findProjectOfClient st.db pid client.id = some project →
      project.status ≠ .OPEN →
      approveApplication st userId pid aid = (.conflict, st)) ∧
    (∀ (st : Sys) (userId pid aid : Nat) (client : ClientRow) (project : ProjectRow)
        (app : ApplicationRow),
      findClientByUserId st.db userId = some client →
      findProjectOfClient st.db pid client.id = some project →
      project.status = .OPEN →
      findApplicationOnProject st.db aid pid = some app →
      app.status ≠ .PENDING →
      approveApplication st userId pid aid = (.conflict, st)) ∧
    (∀ (st : Sys) (fl : FreelancerRow) (pid : Nat) (project : ProjectRow),
      WF st.db →
      findProjectById st.db pid = some project →
      project.status ≠ .ASSIGNED →
      requestCompletion st fl pid = (.notFound, st)) ∧
    (∀ (st : Sys) (userId pid : Nat) (project : ProjectRow),
      WF st.db →
      findProjectById st.db pid = some project →
      project.status ≠ .PENDING_COMPLETION →
      approveCompletion st userId pid = (.notFound, st)) ∧
    (∀ (st : Sys) (userId pid : Nat) (reason : Option String) (project : ProjectRow),
      reason.getD "" ≠ "" →
      WF st.db →
      findProjectById st.db pid = some project →
      project.status ≠ .PENDING_COMPLETION →
      rejectCompletion st userId pid reason = (.notFound, st)) := by
  refine ⟨?_, ?_, ?_, ?_, ?_, ?_⟩
  · intro st pid isReject reason project hval hp hstatus
    unfold adminUpdateProjectStatus
    simp [hval, hp, hstatus]
  · intro st userId pid aid client project hc hp hstatus
    have hguard : approveGuard st.db userId pid aid = .error .conflict := by
      unfold approveGuard
      simp [hc, hp, hstatus]
    unfold approveApplication
    rw [hguard]
  · intro st userId pid aid client project app hc hp hopen ha happ
    have hguard : approveGuard st.db userId pid aid = .error .conflict := by
      unfold approveGuard
      simp [hc, hp, hopen, ha, happ]
    unfold approveApplication
    rw [hguard]
  · intro st fl pid project hwf hp hstatus
    have hnone : findProjectAssignedWithStatus st.db pid fl.id .ASSIGNED = none := by
      apply List.find?_eq_none.mpr
      intro q hq
      simp only [decide_eq_true_eq]
      rintro ⟨h1, -, h3⟩
      have hqp := project_unique st.db pid project hwf.1 hp q hq h1
      rw [hqp] at h3
      exact hstatus h3
    unfold requestCompletion
    rw [hnone]
  · intro st userId pid project hwf hp hstatus
    unfold approveCompletion
    cases hc : findClientByUserId st.db userId with
    | none => rfl
    | some client =>
      have hnone : findProjectOfClientWithStatus st.db pid client.id
          .PENDING_COMPLETION = none := by
        apply List.find?_eq_none.mpr
        intro q hq
        simp only [decide_eq_true_eq]
        rintro ⟨h1, -, h3⟩
        have hqp := project_unique st.db pid project hwf.1 hp q hq h1
        rw [hqp] at h3
        exact hstatus h3
      simp [hnone]
  · intro st userId pid reason project hr hwf hp hstatus
    unfold rejectCompletion
    rw [if_neg hr]
    cases hc : findClientByUserId st.db userId with
    | none => rfl
    | some client =>
      have hnone : findProjectOfClientWithStatus st.db pid client.id
          .PENDING_COMPLETION = none := by
        apply List.find?_eq_none.mpr
        intro q hq
        simp only [decide_eq_true_eq]
        rintro ⟨h1, -, h3⟩
        have hqp := project_unique st.db pid project hwf.1 hp q hq h1
        rw [hqp] at h3
        exact hstatus h3
      simp [hnone]

/-- Witness for C2: each of the six mismatch cases evaluated on a concrete
state whose targeted entity carries a non-matching status. -/
theorem C2_witness :
    adminUpdateProjectStatus ⟨dbC10, []⟩ 100 false none = (.conflict, ⟨dbC10, []⟩) ∧
    approveApplication ⟨dbC6, []⟩ 1 100 999 = (.conflict, ⟨dbC6, []⟩) ∧
    approveApplication ⟨dbC2, []⟩ 1 100 200 = (.conflict, ⟨dbC2, []⟩) ∧
    requestCompletion ⟨dbC6, []⟩ ⟨20, 2, true, [], 0, 0⟩ 100 = (.notFound, ⟨dbC6, []⟩) ∧
    approveCompletion ⟨dbC10, []⟩ 1 100 = (.notFound, ⟨dbC10, []⟩) ∧
    rejectCompletion ⟨dbC10, []⟩ 1 100 (some "not yet done") = (.notFound, ⟨dbC10, []⟩) := by
  have h := C2_guard_mismatch_is_pure_error
  refine ⟨?_, ?_, ?_, ?_, ?_, ?_⟩
  · exact h.1 ⟨dbC10, []⟩ 100 false none ⟨100, 10, none, .OPEN, none, false⟩
      (by decide) (by decide) (by decide)
  · exact h.2.1 ⟨dbC6, []⟩ 1 100 999 ⟨10, 1, 0, 0⟩
      ⟨100, 10, some 20, .PENDING_COMPLETION, none, false⟩ (by decide) (by decide) (by decide)
  · exact h.2.2.1 ⟨dbC2, []⟩ 1 100 200 ⟨10, 1, 0, 0⟩
      ⟨100, 10, none, .OPEN, none, false⟩ ⟨200, 100, 20, .REJECTED⟩
      (by decide) (by decide) (by decide) (by decide) (by decide)
  · exact h.2.2.2.1 ⟨dbC6, []⟩ ⟨20, 2, true, [], 0, 0⟩ 100
      ⟨100, 10, some 20, .PENDING_COMPLETION, none, false⟩ (by decide) (by decide) (by decide)
  · exact h.2.2.2.2.1 ⟨dbC10, []⟩ 1 100 ⟨100, 10, none, .OPEN, none, false⟩
      (by decide) (by decide) (by decide)
  · exact h.2.2.2.2.2 ⟨dbC10, []⟩ 1 100 (some "not yet done")
      ⟨100, 10, none, .OPEN, none, false⟩ (by decide) (by decide) (by decide) (by decide)

/-- Writing a recomputed average into the unique freelancer row keyed k and
reading that key back yields exactly the updated row. -/
theorem find_freelancer_setRatings (dbX : DB) (fl : FreelancerRow) (k : Nat) (v : ℚ)
    (hk : fl.id = k)
    (hnd : (dbX.freelancers.map (fun f => f.id)).Nodup) (hm : fl ∈ dbX.freelancers) :
    (dbX.freelancers.map
        (fun f => if f.id = k then { f with ratings := v } else f)).find?
      (fun b => b.id = k) = some { fl with ratings := v } := by
  subst hk
  have := find?_map_key_nodup (fun f => f.id)
      (fun f => if f.id = fl.id then { f with ratings := v } else f)
      (by intro b; by_cases h : b.id = fl.id <;> simp [h]) dbX.freelancers hnd fl hm
  simpa using this

/-- The client-table version of find_freelancer_setRatings. -/
theorem find_client_setRatings (dbX : DB) (cl : ClientRow) (k : Nat) (v : ℚ)
    (hk : cl.id = k)
    (hnd : (dbX.clients.map (fun c => c.id)).Nodup) (hm : cl ∈ dbX.clients) :
    (dbX.clients.map
        (fun c => if c.id = k then { c with ratings := v } else c)).find?
      (fun b => b.id = k) = some { cl with ratings := v } := by
  subst hk
  have := find?_map_key_nodup (fun c => c.id)
      (fun c => if c.id = cl.id then { c with ratings := v } else c)
      (by intro b; by_cases h : b.id = cl.id <;> simp [h]) dbX.clients hnd cl hm
  simpa using this

/-! ## Claim C3: rating writes recompute the rounded mean in-transaction -/

/-- C3: after every successful rating create (rate-freelancer, rate-client)
and every successful rating update (the two PUT ratings/:ratingId handlers),
the rated user's stored ratings field equals the arithmetic mean of all
Rating rows with ratedId that user and raterType the single correct
direction — CLIENT_TO_FREELANCER for a freelancer, FREELANCER_TO_CLIENT for
a client — rounded to two decimals, the mean being taken over the post-write
rating table; in the embedding the recomputation is part of the same atomic
transaction function as the rating write. -/
theorem C3_rating_mean_recompute :
    (∀ (st : Sys) (client : ClientRow) (pid : Nat) (rating : Int)
        (newRid fid : Nat) (project : ProjectRow) (fl : FreelancerRow),
      1 ≤ rating → rating ≤ 5 →
      findProjectOfClientWithStatus st.db pid client.id .COMPLETED = some project →
      project.assignedTo = some fid →
      findFreelancerById st.db fid = some fl →
      findRatingByTriple st.db pid client.userId fl.userId = none →
      WF st.db →
      (rateFreelancer st client pid rating newRid).1 = .ok ∧
      findFreelancerById (rateFreelancer st client pid rating newRid).2.db fl.id =
        some { fl with ratings := round2 (meanRatings
          (rateFreelancer st client pid rating newRid).2.db fl.userId
          .CLIENT_TO_FREELANCER) }) ∧
    (∀ (st : Sys) (fl : FreelancerRow) (pid : Nat) (rating : Int) (newRid : Nat)
        (project : ProjectRow) (client : ClientRow),
      1 ≤ rating → rating ≤ 5 →
      findProjectAssignedWithStatus st.db pid fl.id .COMPLETED = some project →
      findClientById st.db project.clientId = some client →
      findRatingByTriple st.db pid fl.userId client.userId = none →
      WF st.db →
      (rateClient st fl pid rating newRid).1 = .ok ∧
      findClientById (rateClient st fl pid rating newRid).2.db project.clientId =
        some { client with ratings := round2 (meanRatings
          (rateClient st fl pid rating newRid).2.db client.userId
          .FREELANCER_TO_CLIENT) }) ∧
    (∀ (st : Sys) (userId rid : Nat) (rating : Option Int)
        (existing : RatingRow) (project : ProjectRow) (fid : Nat) (fl : FreelancerRow),
      updateRatingInvalid rating = false →
      findRatingOfRater st.db rid userId .CLIENT_TO_FREELANCER = some existing →
      findProjectById st.db existing.projectId = some project →
      project.assignedTo = some fid →
      findFreelancerById st.db fid = some fl →
      WF st.db →
      (updateRatingByClient st userId rid rating).1 = .ok ∧
      findFreelancerById (updateRatingByClient st userId rid rating).2.db fl.id =
        some { fl with ratings := round2 (meanRatings
          (updateRatingByClient st userId rid rating).2.db fl.userId
          .CLIENT_TO_FREELANCER) }) ∧
    (∀ (st : Sys) (userId rid : Nat) (rating : Option Int)
        (existing : RatingRow) (project : ProjectRow) (client : ClientRow),
      updateRatingInvalid rating = false →
      findRatingOfRater st.db rid userId .FREELANCER_TO_CLIENT = some existing →
      findProjectById st.db existing.projectId = some project →
      findClientById st.db project.clientId = some client →
      WF st.db →
      (updateRatingByFreelancer st userId rid rating).1 = .ok ∧
      findClientById (updateRatingByFreelancer st userId rid rating).2.db project.clientId =
        some { client with ratings := round2 (meanRatings
          (updateRatingByFreelancer st userId rid rating).2.db client.userId
          .FREELANCER_TO_CLIENT) }) := by
  refine ⟨?_, ?_, ?_, ?_⟩
  · intro st client pid rating newRid fid project fl h1 h5 hproj hass hfl hdup hwf
    have hnot : ¬(rating < 1 ∨ rating > 5) := by omega
    constructor
    · unfold rateFreelancer
      simp [hnot, hproj, hass, hfl, hdup]
    · unfold rateFreelancer
      simp [hnot, hproj, hass, hfl, hdup]
      exact find_freelancer_setRatings st.db fl fl.id _ rfl hwf.2.2.1
        (List.mem_of_find?_eq_some hfl)
  · intro st fl pid rating newRid project client h1 h5 hproj hclient hdup hwf
    have hnot : ¬(rating < 1 ∨ rating > 5) := by omega
    have hk : client.id = project.clientId := by
      simpa using List.find?_some hclient
    constructor
    · unfold rateClient
      simp [hnot, hproj, hclient, hdup]
    · unfold rateClient
      simp [hnot, hproj, hclient, hdup]
      exact find_client_setRatings st.db client project.clientId _ hk hwf.2.2.2
        (List.mem_of_find?_eq_some hclient)
  · intro st userId rid rating existing project fid fl hval hexist hproj hass hfl hwf
    constructor
    · unfold updateRatingByClient
      simp [hval, hexist, hproj, hass, hfl]
    · unfold updateRatingByClient
      simp [hval, hexist, hproj, hass, hfl]
      exact find_freelancer_setRatings st.db fl fl.id _ rfl hwf.2.2.1
        (List.mem_of_find?_eq_some hfl)
  · intro st userId rid rating existing project client hval hexist hproj hclient hwf
    have hk : client.id = project.clientId := by
      simpa using List.find?_some hclient
    constructor
    · unfold updateRatingByFreelancer
      simp [hval, hexist, hproj, hclient]
    · unfold updateRatingByFreelancer
      simp [hval, hexist, hproj, hclient]
      exact find_client_setRatings st.db client project.clientId _ hk hwf.2.2.2
        (List.mem_of_find?_eq_some hclient)

/-- Witness for C3: creating rating 4 next to an existing 5 stores the
rounded mean on the freelancer row, and updating a lone rating from 4 to 5
re-stores the new mean. -/
theorem C3_witness :
    ((rateFreelancer sysC3 ⟨10, 1, 0, 0⟩ 100 4 500).1 = .ok ∧
      findFreelancerById (rateFreelancer sysC3 ⟨10, 1, 0, 0⟩ 100 4 500).2.db 20 =
        some ⟨20, 2, true, [], round2 (meanRatings
          (rateFreelancer sysC3 ⟨10, 1, 0, 0⟩ 100 4 500).2.db 2
          .CLIENT_TO_FREELANCER), 0⟩) ∧
    ((updateRatingByClient sysC3u 1 500 (some 5)).1 = .ok ∧
      findFreelancerById (updateRatingByClient sysC3u 1 500 (some 5)).2.db 20 =
        some ⟨20, 2, true, [], round2 (meanRatings
          (updateRatingByClient sysC3u 1 500 (some 5)).2.db 2
          .CLIENT_TO_FREELANCER), 0⟩) := by
  constructor
  · exact C3_rating_mean_recompute.1 sysC3 ⟨10, 1, 0, 0⟩ 100 4 500 20
      ⟨100, 10, some 20, .COMPLETED, none, false⟩ ⟨20, 2, true, [], 5, 0⟩
      (by decide) (by decide) (by decide) (by decide) (by decide) (by decide) (by decide)
  · exact C3_rating_mean_recompute.2.2.1 sysC3u 1 500 (some 5)
      ⟨500, 100, 1, 2, .CLIENT_TO_FREELANCER, 4⟩
      ⟨100, 10, some 20, .COMPLETED, none, false⟩ 20 ⟨20, 2, true, [], 4, 0⟩
      (by decide) (by decide) (by decide) (by decide) (by decide) (by decide)

/-! ## Claim C9: cache deletion hits exactly the enumerated keys -/

theorem mem_pages10 (p : Nat) : p ∈ pages10 ↔ 1 ≤ p ∧ p ≤ 10 := by
  unfold pages10
  constructor
  · intro h
    fin_cases h <;> omega
  · rintro ⟨h1, h2⟩
    interval_cases p <;> decide

theorem mem_pages5 (p : Nat) : p ∈ pages5 ↔ 1 ≤ p ∧ p ≤ 5 := by
  unfold pages5
  constructor
  · intro h
    fin_cases h <;> omega
  · rintro ⟨h1, h2⟩
    interval_cases p <;> decide

/-- Deleting a list of keys leaves every other key's cached value intact. -/
theorem lookup_deleteKeys_not_mem (ks : List String) (k : String) (hk : k ∉ ks) :
    ∀ c : Cache, lookupCache (deleteKeys c ks) k = lookupCache c k := by
  intro c
  induction c with
  | nil => rfl
  | cons e c ih =>
    rcases e with ⟨a, b⟩
    unfold deleteKeys lookupCache at ih ⊢
    rw [List.filter_cons]
    by_cases hmem : a ∈ ks
    · have hcond : (!ks.contains a) = false := by simp [hmem]
      have hne : a ≠ k := fun heq => hk (heq ▸ hmem)
      rw [hcond, if_neg Bool.false_ne_true,
        List.find?_cons_of_neg _ (by simp [hne])]
      exact ih
    · have hcond : (!ks.contains a) = true := by simp [hmem]
      rw [hcond, if_pos rfl]
      by_cases hka : a = k
      · rw [List.find?_cons_of_pos _ (by simp [hka]),
          List.find?_cons_of_pos _ (by simp [hka])]
      · rw [List.find?_cons_of_neg _ (by simp [hka]),
          List.find?_cons_of_neg _ (by simp [hka])]
        exact ih

/-- Deleting a list of keys removes every key on the list. -/
theorem lookup_deleteKeys_mem (ks : List String) (k : String) (hk : k ∈ ks) :
    ∀ c : Cache, lookupCache (deleteKeys c ks) k = none := by
  intro c
  induction c with
  | nil => rfl
  | cons e c ih =>
    rcases e with ⟨a, b⟩
    unfold deleteKeys lookupCache at ih ⊢
    rw [List.filter_cons]
    by_cases hmem : a ∈ ks
    · have hcond : (!ks.contains a) = false := by simp [hmem]
      rw [hcond, if_neg Bool.false_ne_true]
      exact ih
    · have hcond : (!ks.contains a) = true := by simp [hmem]
      have hne : a ≠ k := fun heq => hmem (heq ▸ hk)
      rw [hcond, if_pos rfl, List.find?_cons_of_neg _ (by simp [hne])]
      exact ih

/-- C9: a mutation deletes exactly its handler's enumerated key list.  For
the approve-application handler the list is the four fixed keys plus the
thirteen-template grid over pages 1..10 and page sizes 10/20/50; for the
invalidateClientCaches helper it is the six fixed keys plus the grid over the
four status filters, pages 1..5 and page sizes 10/20/50.  Every key on the
list is removed, and every cache entry whose key is outside the list — for
example a cached list page beyond the enumerated page bound — is left
unchanged. -/
theorem C9_cache_invalidation_exact :
    (∀ (st : Sys) (userId pid aid : Nat) (client : ClientRow) (project : ProjectRow)
        (app : ApplicationRow) (fl : FreelancerRow) (u : UserRow),
      findClientByUserId st.db userId = some client →
      findProjectOfClient st.db pid client.id = some project →
      project.status = .OPEN →
      findApplicationOnProject st.db aid pid = some app →
      app.status = .PENDING →
      findFreelancerById st.db app.freelancerId = some fl →
      findUserById st.db fl.userId = some u →
      (approveApplication st userId pid aid).2.cache =
          deleteKeys st.cache (approveAppKeys userId u.id) ∧
      (∀ k, k ∉ approveAppKeys userId u.id →
        lookupCache (approveApplication st userId pid aid).2.cache k =
          lookupCache st.cache k) ∧
      (∀ k ∈ approveAppKeys userId u.id,
        lookupCache (approveApplication st userId pid aid).2.cache k = none)) ∧
    (∀ (uid fuid : Nat) (k : String),
      k ∈ approveAppKeys uid fuid ↔
        (k ∈ [s!"client:dashboard:{uid}", s!"freelancer:dashboard:{fuid}",
              "public:projects:available", "admin:dashboard:stats"] ∨
         ∃ page limit, 1 ≤ page ∧ page ≤ 10 ∧ limit ∈ pageSizes ∧
           k ∈ [s!"client:projects:{uid}:status:all:page:{page}:limit:{limit}",
                s!"client:projects:{uid}:status:OPEN:page:{page}:limit:{limit}",
                s!"client:projects:{uid}:status:ASSIGNED:page:{page}:limit:{limit}",
                s!"client:applications:{uid}:status:all:page:{page}:limit:{limit}",
                s!"client:applications:{uid}:status:PENDING:page:{page}:limit:{limit}",
                s!"client:applications:{uid}:status:APPROVED:page:{page}:limit:{limit}",
                s!"client:applications:{uid}:status:REJECTED:page:{page}:limit:{limit}",
                s!"freelancer:applications:{fuid}:status:all:page:{page}:limit:{limit}",
                s!"freelancer:applications:{fuid}:status:PENDING:page:{page}:limit:{limit}",
                s!"freelancer:applications:{fuid}:status:APPROVED:page:{page}:limit:{limit}",
                s!"freelancer:projects:{fuid}:status:all:page:{page}:limit:{limit}",
                s!"freelancer:projects:{fuid}:status:ASSIGNED:page:{page}:limit:{limit}",
                s!"freelancer:available:projects:{fuid}:skills:default:budgetMin:any:budgetMax:any:page:{page}:limit:{limit}"])) ∧
    (∀ (uid : Nat) (k : String),
      k ∈ invalidateClientCachesKeys uid ↔
        (k ∈ [s!"client:profile:{uid}", s!"client:dashboard:{uid}",
              "public:projects:available", "public:projects:recent",
              "public:featured:projects", "admin:dashboard:stats"] ∨
         ∃ status page limit, status ∈ clientStatusFilters ∧
           1 ≤ page ∧ page ≤ 5 ∧ limit ∈ pageSizes ∧
           k = s!"client:projects:{uid}:status:{status}:page:{page}:limit:{limit}")) ∧
    (∀ (c : Cache) (uid : Nat) (k : String),
      (k ∉ invalidateClientCachesKeys uid →
        lookupCache (invalidateClientCaches c uid) k = lookupCache c k) ∧
      (k ∈ invalidateClientCachesKeys uid →
        lookupCache (invalidateClientCaches c uid) k = none)) := by
  refine ⟨?_, ?_, ?_, ?_⟩
  · intro st userId pid aid client project app fl u hc hp hopen ha hpend hfl hu
    have hguard : approveGuard st.db userId pid aid = .ok (project, app) := by
      unfold approveGuard
      simp [hc, hp, ha, hopen, hpend]
    have hcache : (approveApplication st userId pid aid).2.cache =
        deleteKeys st.cache (approveAppKeys userId u.id) := by
      unfold approveApplication
      rw [hguard]
      simp [hfl, hu]
    refine ⟨hcache, ?_, ?_⟩
    · intro k hk
      rw [hcache]
      exact lookup_deleteKeys_not_mem _ k hk st.cache
    · intro k hk
      rw [hcache]
      exact lookup_deleteKeys_mem _ k hk st.cache
  · intro uid fuid k
    unfold approveAppKeys
    constructor
    · intro hk
      rcases List.mem_append.mp hk with h | h
      · exact .inl h
      · right
        rcases List.mem_flatMap.mp h with ⟨page, hpage, h2⟩
        rcases List.mem_flatMap.mp h2 with ⟨limit, hlimit, h3⟩
        exact ⟨page, limit, ((mem_pages10 page).mp hpage).1,
          ((mem_pages10 page).mp hpage).2, hlimit, h3⟩
    · rintro (h | ⟨page, limit, h1, h10, hlim, hk⟩)
      · exact List.mem_append.mpr (.inl h)
      · exact List.mem_append.mpr (.inr (List.mem_flatMap.mpr
          ⟨page, (mem_pages10 page).mpr ⟨h1, h10⟩,
           List.mem_flatMap.mpr ⟨limit, hlim, hk⟩⟩))
  · intro uid k
    unfold invalidateClientCachesKeys
    constructor
    · intro hk
      rcases List.mem_append.mp hk with h | h
      · exact .inl h
      · right
        rcases List.mem_flatMap.mp h with ⟨status, hstatus, h2⟩
        rcases List.mem_flatMap.mp h2 with ⟨page, hpage, h3⟩
        rcases List.mem_map.mp h3 with ⟨limit, hlimit, h4⟩
        exact ⟨status, page, limit, hstatus, ((mem_pages5 page).mp hpage).1,
          ((mem_pages5 page).mp hpage).2, hlimit, h4.symm⟩
    · rintro (h | ⟨status, page, limit, hstatus, h1, h5, hlim, hk⟩)
      · exact List.mem_append.mpr (.inl h)
      · exact List.mem_append.mpr (.inr (List.mem_flatMap.mpr
          ⟨status, hstatus, List.mem_flatMap.mpr
            ⟨page, (mem_pages5 page).mpr ⟨h1, h5⟩,
             List.mem_map.mpr ⟨limit, hlim, hk.symm⟩⟩⟩))
  · intro c uid k
    constructor
    · intro hk
      exact lookup_deleteKeys_not_mem _ k hk c
    · intro hk
      exact lookup_deleteKeys_mem _ k hk c

set_option maxRecDepth 100000 in
/-- Witness for C9: in a concrete approve, the in-grid page-2 list key is
deleted while the out-of-grid page-11 key keeps its cached value. -/
theorem C9_witness :
    lookupCache (approveApplication
        ⟨dbC10, [("client:projects:1:status:all:page:11:limit:10", 42),
                 ("client:projects:1:status:all:page:2:limit:10", 7)]⟩ 1 100 200).2.cache
      "client:projects:1:status:all:page:11:limit:10" = some 42 ∧
    lookupCache (approveApplication
        ⟨dbC10, [("client:projects:1:status:all:page:11:limit:10", 42),
                 ("client:projects:1:status:all:page:2:limit:10", 7)]⟩ 1 100 200).2.cache
      "client:projects:1:status:all:page:2:limit:10" = none := by
  have h := C9_cache_invalidation_exact.1
      ⟨dbC10, [("client:projects:1:status:all:page:11:limit:10", 42),
               ("client:projects:1:status:all:page:2:limit:10", 7)]⟩ 1 100 200
      ⟨10, 1, 0, 0⟩ ⟨100, 10, none, .OPEN, none, false⟩ ⟨200, 100, 20, .PENDING⟩
      ⟨20, 2, true, [], 0, 0⟩ ⟨2, true⟩
      (by decide) (by decide) (by decide) (by decide) (by decide) (by decide) (by decide)
  refine ⟨?_, ?_⟩
  · have := h.2.1 "client:projects:1:status:all:page:11:limit:10" (by decide)
    rw [this]
    rfl
  · exact h.2.2 "client:projects:1:status:all:page:2:limit:10" (by decide)

/-! ## Claim C6: reject-completion commits its write but reports a failure -/

/-- C6 (code bug): a fully valid reject-completion request — owning client,
project in PENDING_COMPLETION, nonempty reason — commits the status write
back to ASSIGNED yet reports an internal error, because client.js line 1037
reads project.freelancer.user.id on a project row fetched at line 1012
without an include clause, throwing a TypeError after the update committed.
No cache key is deleted either. -/
theorem C6_reject_completion_reports_failure :
    (rejectCompletion sysC6 1 100 (some "not yet done")).1 = .internalError ∧
    findProjectById (rejectCompletion sysC6 1 100 (some "not yet done")).2.db 100 =
      some ⟨100, 10, some 20, .ASSIGNED, none, false⟩ ∧
    (rejectCompletion sysC6 1 100 (some "not yet done")).2.cache = sysC6.cache := by
  decide

/-! ## Claim C10: the approve-application guard races with its transaction -/

/-- C10 (code bug): the approve-application guard (project still OPEN,
application still PENDING) runs outside the transaction, and the transaction
body updates unconditionally.  With two requests targeting the two PENDING
applications of one OPEN project, the interleaving in which both guard phases
read the initial state before either transaction commits passes both guards;
the two transactions then both commit, leaving both applications APPROVED and
the project silently reassigned by the later transaction — exactly the window
the claim asserts cannot exist. -/
theorem C10_approve_race :
    approveGuard dbC10 1 100 200 =
      .ok (⟨100, 10, none, .OPEN, none, false⟩, ⟨200, 100, 20, .PENDING⟩) ∧
    approveGuard dbC10 1 100 201 =
      .ok (⟨100, 10, none, .OPEN, none, false⟩, ⟨201, 100, 21, .PENDING⟩) ∧
    approvedOn (approveTx (approveTx dbC10 100 200 20) 100 201 21) 100 = 2 ∧
    findProjectById (approveTx (approveTx dbC10 100 200 20) 100 201 21) 100 =
      some ⟨100, 10, some 21, .ASSIGNED, none, false⟩ := by
  exact ⟨rfl, rfl, by decide, by decide⟩

/-! ## Claim C5: the apply operation's exact creation condition -/

/-- C5: the apply operation creates an application row exactly when the
calling freelancer is marked available, the project exists with status OPEN
and no assignee, the client owning the project is active, and no application
for the same (projectId, freelancerId) pair exists yet; in every other case
the operation is rejected and the state — in particular the application
table — is returned unchanged, so a second apply for the same pair never
creates a second row. -/
theorem C5_apply_iff (st : Sys) (fl : FreelancerRow) (pid newAid : Nat) :
    ((applyProject st fl pid newAid).1 = .ok ↔
      (fl.availability = true ∧
       ∃ project, findProjectById st.db pid = some project ∧
         project.status = .OPEN ∧ project.assignedTo = none ∧
         (∃ client u, findClientById st.db project.clientId = some client ∧
            findUserById st.db client.userId = some u ∧ u.isActive = true) ∧
         findApplicationByPair st.db pid fl.id = none)) ∧
    ((applyProject st fl pid newAid).1 = .ok →
      (applyProject st fl pid newAid).2.db.applications =
        st.db.applications ++ [⟨newAid, pid, fl.id, .PENDING⟩]) ∧
    ((applyProject st fl pid newAid).1 ≠ .ok →
      (applyProject st fl pid newAid).2 = st) := by
  unfold applyProject
  cases hav : fl.availability with
  | false => simp [hav]
  | true =>
    cases hp : findProjectById st.db pid with
    | none => simp [hav, hp]
    | some project =>
      cases hc : findClientById st.db project.clientId with
      | none => simp [hav, hp, hc]
      | some client =>
        cases hu : findUserById st.db client.userId with
        | none => simp [hav, hp, hc, hu]
        | some u =>
          cases hua : u.isActive with
          | false => simp [hav, hp, hc, hu, hua]
          | true =>
            by_cases hs : project.status = .OPEN
            · by_cases hass : project.assignedTo = none
              · cases hdup : findApplicationByPair st.db pid fl.id with
                | none => simp [hav, hp, hc, hu, hua, hs, hass, hdup]
                | some a => simp [hav, hp, hc, hu, hua, hs, hass, hdup]
              · simp [hav, hp, hc, hu, hua, hs, hass]
            · simp [hav, hp, hc, hu, hua, hs]

/-- Witness for C5 on the concrete OPEN project 100 of dbC10 state
restricted to a fresh freelancer pair. -/
theorem C5_witness :
    let st : Sys :=
      ⟨⟨[⟨1, true⟩, ⟨2, true⟩], [⟨10, 1, 0, 0⟩], [⟨20, 2, true, [], 0, 0⟩],
        [⟨100, 10, none, .OPEN, none, false⟩], [], []⟩, []⟩
    let fl : FreelancerRow := ⟨20, 2, true, [], 0, 0⟩
    (applyProject st fl 100 300).1 = .ok ∧
    (applyProject st fl 100 300).2.db.applications = [⟨300, 100, 20, .PENDING⟩] := by
  intro st fl
  have h := C5_apply_iff st fl 100 300
  have hok : (applyProject st fl 100 300).1 = .ok := by decide
  exact ⟨hok, by simpa using h.2.1 hok⟩

/-! ## Claim C4: every operation preserves the single-APPROVED invariant -/

/-- The invariant reads only the project and application tables. -/
theorem inv_congr (db dbX : DB) (hp : dbX.projects = db.projects)
    (ha : dbX.applications = db.applications) (h : Inv db) : Inv dbX := by
  intro p hmem
  have hcount : approvedOn dbX p.id = approvedOn db p.id := by
    unfold approvedOn approvedCount
    rw [ha]
  rw [hp] at hmem
  rw [hcount]
  exact h p hmem

/-- Mapping an id-preserving transformation over the project table that also
preserves each row's ASSIGNED-or-later classification preserves the
invariant. -/
theorem inv_map_projects (db : DB) (g : ProjectRow → ProjectRow)
    (hid : ∀ p, (g p).id = p.id)
    (hstat : ∀ p ∈ db.projects,
      statusAssignedOrLater (g p).status ↔ statusAssignedOrLater p.status)
    (h : Inv db) : Inv { db with projects := db.projects.map g } := by
  intro p hmem
  rcases List.mem_map.mp hmem with ⟨q, hq, rfl⟩
  have hcount : approvedOn { db with projects := db.projects.map g } (g q).id
      = approvedOn db q.id := by
    unfold approvedOn approvedCount
    rw [hid]
  rw [hcount]
  exact ⟨(h q hq).1, (h q hq).2.trans (hstat q hq).symm⟩

/-- Replacing the application table without changing any project's APPROVED
count preserves the invariant. -/
theorem inv_apps_change (db : DB) (apps : List ApplicationRow)
    (hcount : ∀ pid, approvedCount apps pid = approvedCount db.applications pid)
    (h : Inv db) : Inv { db with applications := apps } := by
  intro p hmem
  have hc : approvedOn { db with applications := apps } p.id = approvedOn db p.id := by
    unfold approvedOn
    exact hcount p.id
  rw [hc]
  exact h p hmem

/-- Appending a project row that is not ASSIGNED-or-later and has no APPROVED
application preserves the invariant, also when the client table is rewritten
alongside. -/
theorem inv_append_project (db : DB) (row : ProjectRow) (clients2 : List ClientRow)
    (hstat : ¬statusAssignedOrLater row.status)
    (hfresh : approvedOn db row.id = 0)
    (h : Inv db) :
    Inv { db with projects := db.projects ++ [row], clients := clients2 } := by
  intro p hmem
  show approvedOn db p.id ≤ 1 ∧ (0 < approvedOn db p.id ↔ statusAssignedOrLater p.status)
  rcases List.mem_append.mp hmem with hmem2 | hmem2
  · exact h p hmem2
  · rcases List.mem_singleton.mp hmem2 with rfl
    rw [hfresh]
    exact ⟨by omega, by simp [hstat]⟩

/-- The approve transaction establishes the invariant at the target project
and preserves it everywhere else, provided the target project had no APPROVED
application yet. -/
theorem inv_approveTx (db : DB) (pid aid fid : Nat) (app : ApplicationRow)
    (hnd : (db.applications.map (fun a => a.id)).Nodup)
    (hm : app ∈ db.applications) (hid : app.id = aid) (hpid : app.projectId = pid)
    (hzero : approvedOn db pid = 0)
    (h : Inv db) : Inv (approveTx db pid aid fid) := by
  have huniq : ∀ a ∈ db.applications, a.id = aid → a = app := by
    intro a ha haid
    exact List.inj_on_of_nodup_map hnd ha hm (by rw [haid, hid])
  have hnoapp : ∀ a ∈ db.applications, ¬(a.projectId = pid ∧ a.status = .APPROVED) := by
    have := List.countP_eq_zero.mp hzero
    intro a ha hcontra
    exact this a ha (by simpa using hcontra)
  intro p hmem
  rcases List.mem_map.mp hmem with ⟨q, hq, rfl⟩
  by_cases hqpid : q.id = pid
  · -- the assigned project: exactly one APPROVED application remains
    have hcount : approvedOn (approveTx db pid aid fid) pid = 1 := by
      unfold approveTx approvedOn approvedCount
      rw [List.countP_map]
      have hcongr : ∀ a ∈ db.applications,
          ((fun a => decide (a.projectId = pid ∧ a.status = .APPROVED)) ∘
            (fun a =>
              if a.id = aid then { a with status := .APPROVED }
              else if a.projectId = pid ∧ a.status = .PENDING then
                { a with status := .REJECTED }
              else a)) a = true ↔ (fun a => decide (a.id = aid)) a = true := by
        intro a ha
        by_cases haid : a.id = aid
        · have := huniq a ha haid
          subst this
          simp [haid, hpid]
        · by_cases hpend : a.projectId = pid ∧ a.status = .PENDING
          · simp [haid, hpend]
          · simp only [Function.comp, if_neg haid, if_neg hpend]
            simp only [decide_eq_true_eq]
            constructor
            · intro hcontra
              exact absurd hcontra (hnoapp a ha)
            · intro hcontra
              exact absurd hcontra haid
      rw [List.countP_congr hcongr]
      have : List.countP (fun a => decide (a.id = aid)) db.applications =
          List.countP (fun x => decide (x = aid)) (db.applications.map (fun a => a.id)) := by
        rw [List.countP_map]
        rfl
      rw [this]
      have hcongr2 : ∀ x ∈ db.applications.map (fun a => a.id),
          (fun x => decide (x = aid)) x = true ↔ (fun x => x == aid) x = true := by
        intro x _
        simp
      rw [List.countP_congr hcongr2]
      have hmm : aid ∈ db.applications.map (fun a => a.id) :=
        hid ▸ List.mem_map_of_mem (fun a => a.id) hm
      calc List.countP (fun x => x == aid) (db.applications.map (fun a => a.id))
          = List.count aid (db.applications.map (fun a => a.id)) := rfl
        _ = 1 := List.count_eq_one_of_mem hnd hmm
    rw [if_pos hqpid]
    show approvedOn (approveTx db pid aid fid) q.id ≤ 1 ∧
      (0 < approvedOn (approveTx db pid aid fid) q.id ↔
        statusAssignedOrLater .ASSIGNED)
    rw [hqpid, hcount]
    exact ⟨by omega, by simp [statusAssignedOrLater]⟩
  · -- untouched project: its count and status are unchanged
    rw [if_neg hqpid]
    have hqpid2 : pid ≠ q.id := fun hcontra => hqpid hcontra.symm
    have hcount : approvedOn (approveTx db pid aid fid) q.id = approvedOn db q.id := by
      unfold approveTx approvedOn approvedCount
      rw [List.countP_map]
      apply List.countP_congr
      intro a ha
      by_cases haid : a.id = aid
      · have := huniq a ha haid
        subst this
        simp [haid, hpid, hqpid2]
      · by_cases hpend : a.projectId = pid ∧ a.status = .PENDING
        · simp [haid, hpend, hpend.1, hqpid2]
        · simp [haid, hpend]
    rw [hcount]
    exact h q hq

/-- inv_map_projects generalized to a result state that may also rewrite the
tables the invariant does not read. -/
theorem inv_map_projects_gen (db dbX : DB) (g : ProjectRow → ProjectRow)
    (hproj : dbX.projects = db.projects.map g)
    (happs : dbX.applications = db.applications)
    (hid : ∀ p, (g p).id = p.id)
    (hstat : ∀ p ∈ db.projects,
      statusAssignedOrLater (g p).status ↔ statusAssignedOrLater p.status)
    (h : Inv db) : Inv dbX :=
  inv_congr { db with projects := db.projects.map g } dbX hproj happs
    (inv_map_projects db g hid hstat h)

/-- C4: every embedded operation of the system — project creation, the admin
status updates (single and bulk), featuring, applying, rejecting and
approving applications, the three completion transitions and the four rating
writes — preserves the invariant that each project has at most one APPROVED
application, existing exactly when the project is ASSIGNED,
PENDING_COMPLETION or COMPLETED. -/
theorem C4_invariant_preserved :
    (∀ (st : Sys) (userId : Nat) (title : String) (newPid : Nat),
      Inv st.db → (∀ a ∈ st.db.applications, a.projectId ≠ newPid) →
      Inv ((createProject st userId title newPid).2.db)) ∧
    (∀ (st : Sys) (pid : Nat) (isReject : Bool) (reason : Option String),
      Inv st.db → WF st.db →
      Inv ((adminUpdateProjectStatus st pid isReject reason).2.db)) ∧
    (∀ (st : Sys) (projectIds : List Nat) (isReject : Bool) (reason : Option String),
      Inv st.db → WF st.db →
      Inv ((bulkUpdateProjectStatus st projectIds isReject reason).2.db)) ∧
    (∀ (st : Sys) (pid : Nat), Inv st.db → Inv ((toggleFeatured st pid).2.db)) ∧
    (∀ (st : Sys) (fl : FreelancerRow) (pid newAid : Nat),
      Inv st.db → Inv ((applyProject st fl pid newAid).2.db)) ∧
    (∀ (st : Sys) (userId pid aid : Nat),
      Inv st.db → WF st.db → Inv ((rejectApplication st userId pid aid).2.db)) ∧
    (∀ (st : Sys) (userId pid aid : Nat),
      Inv st.db → WF st.db → Inv ((approveApplication st userId pid aid).2.db)) ∧
    (∀ (st : Sys) (fl : FreelancerRow) (pid : Nat),
      Inv st.db → WF st.db → Inv ((requestCompletion st fl pid).2.db)) ∧
    (∀ (st : Sys) (userId pid : Nat),
      Inv st.db → WF st.db → Inv ((approveCompletion st userId pid).2.db)) ∧
    (∀ (st : Sys) (userId pid : Nat) (reason : Option String),
      Inv st.db → WF st.db → Inv ((rejectCompletion st userId pid reason).2.db)) ∧
    (∀ (st : Sys) (client : ClientRow) (pid : Nat) (rating : Int) (newRid : Nat),
      Inv st.db → Inv ((rateFreelancer st client pid rating newRid).2.db)) ∧
    (∀ (st : Sys) (fl : FreelancerRow) (pid : Nat) (rating : Int) (newRid : Nat),
      Inv st.db → Inv ((rateClient st fl pid rating newRid).2.db)) ∧
    (∀ (st : Sys) (userId rid : Nat) (rating : Option Int),
      Inv st.db → Inv ((updateRatingByClient st userId rid rating).2.db)) ∧
    (∀ (st : Sys) (userId rid : Nat) (rating : Option Int),
      Inv st.db → Inv ((updateRatingByFreelancer st userId rid rating).2.db)) := by
  refine ⟨?_, ?_, ?_, ?_, ?_, ?_, ?_, ?_, ?_, ?_, ?_, ?_, ?_, ?_⟩
  · -- createProject
    intro st userId title newPid h hfresh
    unfold createProject
    by_cases ht : title = ""
    · simp only [ht, if_pos rfl]
      exact h
    · rw [if_neg ht]
      cases hc : findClientByUserId st.db userId with
      | none =>
        simp only [hc]
        exact h
      | some client =>
        simp only [hc]
        have hfresh2 : approvedOn st.db newPid = 0 := by
          unfold approvedOn approvedCount
          apply List.countP_eq_zero.mpr
          intro a ha
          simp only [decide_eq_true_eq]
          rintro ⟨h1, -⟩
          exact hfresh a ha h1
        exact inv_append_project st.db
          ⟨newPid, client.id, none, .ADMIN_VERIFICATION, none, false⟩ _
          (by simp [statusAssignedOrLater]) hfresh2 h
  · -- adminUpdateProjectStatus
    intro st pid isReject reason h hwf
    unfold adminUpdateProjectStatus
    by_cases hval : adminValidate isReject reason = true
    · rw [if_neg (not_not_intro hval)]
      cases hp : findProjectById st.db pid with
      | none =>
        simp only [hp]
        exact h
      | some project =>
        simp only [hp]
        by_cases hstatus : project.status = .ADMIN_VERIFICATION
        · rw [if_neg (not_not_intro hstatus)]
          have hinv : Inv { st.db with projects := st.db.projects.map (fun p =>
              if p.id = pid then
                { p with
                  status := (if isReject then ProjectStatus.CANCELLED else ProjectStatus.OPEN),
                  rejectedReason := (if isReject then some ((reason.getD "").trim) else none) }
              else p) } := by
            apply inv_map_projects
            · intro p
              by_cases hppid : p.id = pid <;> simp [hppid]
            · intro p hpmem
              by_cases hppid : p.id = pid
              · have hprojid : project.id = pid := by simpa using List.find?_some hp
                have hpeq := project_unique st.db pid project hwf.1 hp p hpmem hppid
                rw [hpeq, if_pos hprojid]
                cases isReject <;> simp [statusAssignedOrLater, hstatus]
              · rw [if_neg hppid]
            · exact h
          cases hcl : findClientById st.db project.clientId with
          | none =>
            simp only [hcl]
            exact hinv
          | some cl =>
            simp only [hcl]
            exact hinv
        · rw [if_pos hstatus]
          exact h
    · rw [if_pos hval]
      exact h
  · -- bulkUpdateProjectStatus
    intro st projectIds isReject reason h hwf
    unfold bulkUpdateProjectStatus
    by_cases hval : adminValidate isReject reason = true
    · rw [if_neg (not_not_intro hval)]
      by_cases hlen : (st.db.projects.filter (fun p =>
          decide (p.id ∈ projectIds ∧ p.status = .ADMIN_VERIFICATION))).length = 0
      · simp only [hlen, if_pos rfl]
        exact h
      · simp only [hlen, if_neg hlen]
        have hinv : Inv { st.db with projects := st.db.projects.map (fun p =>
            if p.id ∈ (st.db.projects.filter (fun p =>
                decide (p.id ∈ projectIds ∧ p.status = .ADMIN_VERIFICATION))).map
                  (fun p => p.id) then
              { p with
                status := (if isReject then ProjectStatus.CANCELLED else ProjectStatus.OPEN),
                rejectedReason := (if isReject then some ((reason.getD "").trim) else none) }
            else p) } := by
          apply inv_map_projects
          · intro p
            by_cases hin : p.id ∈ (st.db.projects.filter (fun p =>
                decide (p.id ∈ projectIds ∧ p.status = .ADMIN_VERIFICATION))).map
                  (fun p => p.id)
            · rw [if_pos hin]
            · rw [if_neg hin]
          · intro p hpmem
            by_cases hin : p.id ∈ (st.db.projects.filter (fun p =>
                decide (p.id ∈ projectIds ∧ p.status = .ADMIN_VERIFICATION))).map
                  (fun p => p.id)
            · rcases List.mem_map.mp hin with ⟨q, hqsel, hqid⟩
              have hqmem : q ∈ st.db.projects := List.mem_of_mem_filter hqsel
              have hqprop := List.of_mem_filter hqsel
              simp only [decide_eq_true_eq] at hqprop
              have hpeq : p = q :=
                List.inj_on_of_nodup_map hwf.1 hpmem hqmem hqid.symm
              rw [hpeq, if_pos (hpeq ▸ hin), hqprop.2]
              cases isReject <;> simp [statusAssignedOrLater]
            · rw [if_neg hin]
          · exact h
        cases hmap : (st.db.projects.filter (fun p =>
            decide (p.id ∈ projectIds ∧ p.status = .ADMIN_VERIFICATION))).mapM
            (fun p => findClientById st.db p.clientId) with
        | none =>
          simp only [hmap]
          exact hinv
        | some clients =>
          simp only [hmap]
          exact hinv
    · rw [if_pos hval]
      exact h
  · -- toggleFeatured
    intro st pid h
    unfold toggleFeatured
    cases hp : findProjectById st.db pid with
    | none =>
      simp only [hp]
      exact h
    | some project =>
      simp only [hp]
      apply inv_map_projects
      · intro p
        by_cases hppid : p.id = pid <;> simp [hppid]
      · intro p hpmem
        by_cases hppid : p.id = pid <;> simp [hppid]
      · exact h
  · -- applyProject
    intro st fl pid newAid h
    unfold applyProject
    cases hav : fl.availability with
    | false => simp only [hav]; exact h
    | true =>
      simp only [hav, Bool.not_true]
      cases hp : findProjectById st.db pid with
      | none => simp only [hp]; exact h
      | some project =>
        simp only [hp]
        cases hc : findClientById st.db project.clientId with
        | none => simp only [hc]; exact h
        | some client =>
          simp only [hc]
          cases hu : findUserById st.db client.userId with
          | none => simp only [hu]; exact h
          | some u =>
            simp only [hu]
            cases hua : u.isActive with
            | false => exact h
            | true =>
              by_cases hs : project.status = .OPEN
              · by_cases hass : project.assignedTo = none
                · cases hdup : findApplicationByPair st.db pid fl.id with
                  | some a =>
                    simp [hav, hp, hc, hu, hua, hs, hass, hdup]
                    exact h
                  | none =>
                    simp [hav, hp, hc, hu, hua, hs, hass, hdup]
                    apply inv_apps_change
                    · intro pidX
                      unfold approvedCount
                      rw [List.countP_append]
                      simp
                    · exact h
                · simp [hav, hp, hc, hu, hua, hs, hass]
                  exact h
              · simp [hav, hp, hc, hu, hua, hs]
                exact h
  · -- rejectApplication
    intro st userId pid aid h hwf
    unfold rejectApplication
    cases hc : findClientByUserId st.db userId with
    | none => simp only [hc]; exact h
    | some client =>
      simp only [hc]
      cases hp : findProjectOfClient st.db pid client.id with
      | none => simp only [hp]; exact h
      | some project =>
        simp only [hp]
        cases ha : findApplicationOnProject st.db aid pid with
        | none => simp only [ha]; exact h
        | some app =>
          simp only [ha]
          by_cases hpend : app.status = .PENDING
          · rw [if_neg (not_not_intro hpend)]
            have happ : app.id = aid ∧ app.projectId = pid := by
              simpa using List.find?_some ha
            have hmem : app ∈ st.db.applications := List.mem_of_find?_eq_some ha
            have hinv : Inv { st.db with applications := st.db.applications.map (fun a =>
                if a.id = aid then { a with status := .REJECTED } else a) } := by
              apply inv_apps_change
              · intro pidX
                unfold approvedCount
                rw [List.countP_map]
                apply List.countP_congr
                intro a haX
                by_cases haid : a.id = aid
                · have : a = app := List.inj_on_of_nodup_map hwf.2.1 haX hmem
                    (by rw [haid, happ.1])
                  subst this
                  simp [haid, hpend]
                · simp [haid]
              · exact h
            cases hf : findFreelancerById st.db app.freelancerId with
            | none => simp only [hf]; exact hinv
            | some fl =>
              simp only [hf]
              cases hu : findUserById st.db fl.userId with
              | none => simp only [hu]; exact hinv
              | some u => simp only [hu]; exact hinv
          · rw [if_pos hpend]
            exact h
  · -- approveApplication
    intro st userId pid aid h hwf
    unfold approveApplication approveGuard
    cases hc : findClientByUserId st.db userId with
    | none => simp only [hc]; exact h
    | some client =>
      simp only [hc]
      cases hp : findProjectOfClient st.db pid client.id with
      | none => simp only [hp]; exact h
      | some project =>
        simp only [hp]
        by_cases hopen : project.status = .OPEN
        · rw [if_neg (not_not_intro hopen)]
          cases ha : findApplicationOnProject st.db aid pid with
          | none => simp only [ha]; exact h
          | some app =>
            simp only [ha]
            by_cases hpend : app.status = .PENDING
            · rw [if_neg (not_not_intro hpend)]
              have happ : app.id = aid ∧ app.projectId = pid := by
                simpa using List.find?_some ha
              have hamem : app ∈ st.db.applications := List.mem_of_find?_eq_some ha
              have hpp : project.id = pid ∧ project.clientId = client.id := by
                simpa using List.find?_some hp
              have hpmem : project ∈ st.db.projects := List.mem_of_find?_eq_some hp
              have hzero : approvedOn st.db pid = 0 := by
                have hI := h project hpmem
                rw [hopen] at hI
                have : ¬statusAssignedOrLater .OPEN := by
                  simp [statusAssignedOrLater]
                have h0 : ¬(0 < approvedOn st.db project.id) := fun hcontra =>
                  this (hI.2.mp hcontra)
                rw [hpp.1] at h0
                omega
              have hinv : Inv (approveTx st.db pid aid app.freelancerId) :=
                inv_approveTx st.db pid aid app.freelancerId app hwf.2.1 hamem
                  happ.1 happ.2 hzero h
              cases hf : findFreelancerById st.db app.freelancerId with
              | none => simp only [hf]; exact hinv
              | some fl =>
                simp only [hf]
                cases hu : findUserById st.db fl.userId with
                | none => simp only [hu]; exact hinv
                | some u => simp only [hu]; exact hinv
            · rw [if_pos hpend]
              exact h
        · rw [if_pos hopen]
          exact h
  · -- requestCompletion
    intro st fl pid h hwf
    unfold requestCompletion
    cases hp : findProjectAssignedWithStatus st.db pid fl.id .ASSIGNED with
    | none => simp only [hp]; exact h
    | some project =>
      simp only [hp]
      have hpp : project.id = pid ∧ project.assignedTo = some fl.id ∧
          project.status = .ASSIGNED := by
        simpa using List.find?_some hp
      have hpmem : project ∈ st.db.projects := List.mem_of_find?_eq_some hp
      have hinv : Inv { st.db with projects := st.db.projects.map (fun p =>
          if p.id = pid then { p with status := .PENDING_COMPLETION } else p) } := by
        apply inv_map_projects
        · intro p
          by_cases hppid : p.id = pid <;> simp [hppid]
        · intro p hpmemX
          by_cases hppid : p.id = pid
          · have hpeq : p = project := List.inj_on_of_nodup_map hwf.1 hpmemX hpmem
              (by rw [hppid, hpp.1])
            rw [hpeq, if_pos hpp.1]
            simp [statusAssignedOrLater, hpp.2.2]
          · rw [if_neg hppid]
        · exact h
      cases hc : findClientById st.db project.clientId with
      | none => simp only [hc]; exact h
      | some client =>
        simp only [hc]
        cases hu : findUserById st.db client.userId with
        | none => simp only [hu]; exact h
        | some u =>
          simp only [hu]
          cases hua : u.isActive with
          | false => exact h
          | true => simp; exact hinv
  · -- approveCompletion
    intro st userId pid h hwf
    unfold approveCompletion
    cases hc : findClientByUserId st.db userId with
    | none => simp only [hc]; exact h
    | some client =>
      simp only [hc]
      cases hp : findProjectOfClientWithStatus st.db pid client.id
          .PENDING_COMPLETION with
      | none => simp only [hp]; exact h
      | some project =>
        simp only [hp]
        have hpp : project.id = pid ∧ project.clientId = client.id ∧
            project.status = .PENDING_COMPLETION := by
          simpa using List.find?_some hp
        have hpmem : project ∈ st.db.projects := List.mem_of_find?_eq_some hp
        cases hfa : project.assignedTo.bind (findFreelancerById st.db) with
        | none => simp only [hfa]; exact h
        | some fl =>
          simp only [hfa]
          have hinv : ∀ dbX : DB,
              dbX.projects = st.db.projects.map (fun p =>
                if p.id = pid then { p with status := .COMPLETED } else p) →
              dbX.applications = st.db.applications → Inv dbX := by
            intro dbX hproj happs
            apply inv_map_projects_gen st.db dbX _ hproj happs
            · intro p
              by_cases hppid : p.id = pid <;> simp [hppid]
            · intro p hpmemX
              by_cases hppid : p.id = pid
              · have hpeq : p = project := List.inj_on_of_nodup_map hwf.1 hpmemX hpmem
                  (by rw [hppid, hpp.1])
                rw [hpeq, if_pos hpp.1]
                simp [statusAssignedOrLater, hpp.2.2]
              · rw [if_neg hppid]
            · exact h
          cases hu : findUserById st.db fl.userId with
          | none => simp only [hu]; exact hinv _ rfl rfl
          | some u => simp only [hu]; exact hinv _ rfl rfl
  · -- rejectCompletion
    intro st userId pid reason h hwf
    unfold rejectCompletion
    by_cases hr : reason.getD "" = ""
    · rw [if_pos hr]
      exact h
    · rw [if_neg hr]
      cases hc : findClientByUserId st.db userId with
      | none => simp only [hc]; exact h
      | some client =>
        simp only [hc]
        cases hp : findProjectOfClientWithStatus st.db pid client.id
            .PENDING_COMPLETION with
        | none => simp only [hp]; exact h
        | some project =>
          simp only [hp]
          have hpp : project.id = pid ∧ project.clientId = client.id ∧
              project.status = .PENDING_COMPLETION := by
            simpa using List.find?_some hp
          have hpmem : project ∈ st.db.projects := List.mem_of_find?_eq_some hp
          apply inv_map_projects
          · intro p
            by_cases hppid : p.id = pid <;> simp [hppid]
          · intro p hpmemX
            by_cases hppid : p.id = pid
            · have hpeq : p = project := List.inj_on_of_nodup_map hwf.1 hpmemX hpmem
                (by rw [hppid, hpp.1])
              rw [hpeq, if_pos hpp.1]
              simp [statusAssignedOrLater, hpp.2.2]
            · rw [if_neg hppid]
          · exact h
  · -- rateFreelancer
    intro st client pid rating newRid h
    unfold rateFreelancer
    by_cases hv : rating < 1 ∨ rating > 5
    · rw [if_pos hv]
      exact h
    · rw [if_neg hv]
      cases hp : findProjectOfClientWithStatus st.db pid client.id .COMPLETED with
      | none => simp only [hp]; exact h
      | some project =>
        simp only [hp]
        cases hfa : project.assignedTo.bind (findFreelancerById st.db) with
        | none => simp only [hfa]; exact h
        | some fl =>
          simp only [hfa]
          cases hdup : findRatingByTriple st.db pid client.userId fl.userId with
          | some r => simp only [hdup]; exact h
          | none =>
            simp only [hdup]
            exact inv_congr st.db _ rfl rfl h
  · -- rateClient
    intro st fl pid rating newRid h
    unfold rateClient
    by_cases hv : rating < 1 ∨ rating > 5
    · rw [if_pos hv]
      exact h
    · rw [if_neg hv]
      cases hp : findProjectAssignedWithStatus st.db pid fl.id .COMPLETED with
      | none => simp only [hp]; exact h
      | some project =>
        simp only [hp]
        cases hc : findClientById st.db project.clientId with
        | none => simp only [hc]; exact h
        | some client =>
          simp only [hc]
          cases hdup : findRatingByTriple st.db pid fl.userId client.userId with
          | some r => simp only [hdup]; exact h
          | none =>
            simp only [hdup]
            exact inv_congr st.db _ rfl rfl h
  · -- updateRatingByClient
    intro st userId rid rating h
    unfold updateRatingByClient
    cases hb : updateRatingInvalid rating with
    | true => simp only [hb]; exact h
    | false =>
      simp only [hb, Bool.false_eq_true, if_false]
      cases he : findRatingOfRater st.db rid userId .CLIENT_TO_FREELANCER with
      | none => simp only [he]; exact h
      | some existing =>
        simp only [he]
        cases hp : findProjectById st.db existing.projectId with
        | none => simp only [hp]; exact h
        | some project =>
          simp only [hp]
          cases hfa : project.assignedTo.bind (findFreelancerById st.db) with
          | none => simp only [hfa]; exact h
          | some fl =>
            simp only [hfa]
            exact inv_congr st.db _ rfl rfl h
  · -- updateRatingByFreelancer
    intro st userId rid rating h
    unfold updateRatingByFreelancer
    cases hb : updateRatingInvalid rating with
    | true => simp only [hb]; exact h
    | false =>
      simp only [hb, Bool.false_eq_true, if_false]
      cases he : findRatingOfRater st.db rid userId .FREELANCER_TO_CLIENT with
      | none => simp only [he]; exact h
      | some existing =>
        simp only [he]
        cases hp : findProjectById st.db existing.projectId with
        | none => simp only [hp]; exact h
        | some project =>
          simp only [hp]
          cases hc : findClientById st.db project.clientId with
          | none => simp only [hc]; exact h
          | some client =>
            simp only [hc]
            exact inv_congr st.db _ rfl rfl h

/-- Witness for C4: the preservation statements evaluated on the concrete
OPEN-project state (approve, apply, admin-approve) and on the
pending-completion state (reject-completion). -/
theorem C4_witness :
    Inv ((approveApplication ⟨dbC10, []⟩ 1 100 200).2.db) ∧
    Inv ((applyProject ⟨dbC10, []⟩ ⟨22, 4, true, [], 0, 0⟩ 100 300).2.db) ∧
    Inv ((adminUpdateProjectStatus ⟨dbC10, []⟩ 100 false none).2.db) ∧
    Inv ((rejectCompletion ⟨dbC6, []⟩ 1 100 (some "not yet done")).2.db) := by
  have h := C4_invariant_preserved
  exact ⟨h.2.2.2.2.2.2.1 ⟨dbC10, []⟩ 1 100 200 (by decide) (by decide),
    h.2.2.2.2.1 ⟨dbC10, []⟩ ⟨22, 4, true, [], 0, 0⟩ 100 300 (by decide),
    h.2.1 ⟨dbC10, []⟩ 100 false none (by decide) (by decide),
    h.2.2.2.2.2.2.2.2.2.1 ⟨dbC6, []⟩ 1 100 (some "not yet done") (by decide) (by decide)⟩

end TheGigUp
